import Mathlib

/-!
# CQL: a shallow embedding of the table engine, the save/load codec and the command executor

Sources: `src/database.hpp`, `src/database.cpp`, `src/CommandParser.cpp`.

Modelling conventions.

* `std::string` is `Str`, a list of characters (ASCII text).
* `size_t` is a natural number; subtraction of two `size_t` wraps modulo `2 ^ 64` (`szSub`).
* `int` payloads are integers; `std::stoi` checks the 32-bit range.
* A `float` payload is its binary32 bit pattern; `==` on floats is the IEEE comparison of the
  patterns.  Text conversion of floats (`std::stof`, `operator<<`) is taken from the
  environment `Env`; the file system of the moment is `Files`.
* A C++ exception is a value of `Exn`; a method that can throw returns the object it leaves
  behind together with the exception, if any.
* `front()` of an empty string reads the terminating NUL, so `s.front() == '"'` is false
  for the empty string (and `back()` is then not evaluated).
* An out-of-bounds `operator[]` on a vector is undefined behaviour; the model stops the
  command with `Exn.undefined_behaviour`.
* Printing is recorded as a list of `Event`s, one per printed message, in program order.
-/

namespace CQL

/-! ## Strings -/

abbrev Str := List Char

/-- The value of `std::string::npos` and the modulus of `size_t` arithmetic minus one. -/
def npos : Nat := 2 ^ 64 - 1

/-- Subtraction of two `size_t` values. -/
def szSub (a b : Nat) : Nat := (a + 2 ^ 64 - b % 2 ^ 64) % 2 ^ 64

/-- The function `::isspace` in the "C" locale. -/
def isspace (c : Char) : Bool :=
  c = ' ' || c = '\t' || c = '\n' || c = '\x0b' || c = '\x0c' || c = '\r'

/-- The function `::toupper` in the "C" locale. -/
def toupper (c : Char) : Char :=
  if 97 ≤ c.toNat ∧ c.toNat ≤ 122 then Char.ofNat (c.toNat - 32) else c

/-- The idiom `std::transform(s.begin(), s.end(), s.begin(), ::toupper)`. -/
def upperStr (s : Str) : Str := s.map toupper

/-- The idiom `s.erase(std::remove_if(s.begin(), s.end(), ::isspace), s.end())`. -/
def removeSpaces (s : Str) : Str := s.filter (fun c => !isspace c)

/-- The method `s.starts_with(p)`. -/
def startsWith : Str → Str → Bool
  | _, [] => true
  | [], _ :: _ => false
  | c :: s, d :: p => c = d && startsWith s p

/-- The method `s.find(c)` for a character, `none` standing for `npos`. -/
def findChar (c : Char) : Str → Option Nat
  | [] => none
  | d :: s => if d = c then some 0 else (findChar c s).map (· + 1)

/-- The method `s.rfind(c)` for a character. -/
def rfindChar (c : Char) : Str → Option Nat
  | [] => none
  | d :: s =>
    match rfindChar c s with
    | some i => some (i + 1)
    | none => if d = c then some 0 else none

/-- The method `s.find(p)` for a string. -/
def findStr (p : Str) : Str → Option Nat
  | [] => if p = [] then some 0 else none
  | c :: s => if startsWith (c :: s) p then some 0 else (findStr p s).map (· + 1)

/-- Exceptions that the program can raise. -/
inductive Exn
  /-- the exception `std::invalid_argument` from `std::stoi` / `std::stof` -/
  | invalid_argument
  /-- the exception `std::out_of_range` from `std::stoi` / `std::stof` / `substr` -/
  | out_of_range
  /-- the message "Value count does not match column count." -/
  | valueCount
  /-- the message "Primary key column not found." -/
  | pkNotFound
  /-- the message "Primary key violation: duplicate value in '<pk>'" -/
  | pkViolation (pk : Str)
  /-- the message "Table already exists" -/
  | tableExists
  /-- the message "Table does not exist" -/
  | tableMissing
  /-- the message "Could not open file for writing: <path>" -/
  | cannotWrite (path : Str)
  /-- the message "Could not open file for reading: <path>" -/
  | cannotRead (path : Str)
  /-- the message "Unknown column type: <type>" -/
  | unknownColumnType (type : Str)
  /-- the message "Too many values in a row for table <name>" -/
  | tooManyValues (table : Str)
  /-- the message "Value conversion failed for: '<token>' in column <name>" -/
  | conversionFailed (token column : Str)
  /-- the message "Row value count does not match column count in table <name>" -/
  | rowCount (table : Str)
  /-- an out-of-bounds `operator[]` -/
  | undefined_behaviour
  deriving DecidableEq, Repr

deriving instance DecidableEq for Except

/-- The method `s.substr(pos, len)`: throws when `pos > s.size()`. -/
def substr (s : Str) (pos len : Nat) : Except Exn Str :=
  if pos > s.length then .error .out_of_range
  else .ok ((s.drop pos).take (min len (s.length - pos)))

/-- The method `s.substr(pos)`. -/
def substrFrom (s : Str) (pos : Nat) : Except Exn Str := substr s pos npos

/-- Reading with `stream >> a >> b >> ...`: the whitespace-separated words of `s`, the word
being read kept reversed in `cur`. -/
def wordsAux : Str → Str → List Str
  | cur, [] => if cur = [] then [] else [cur.reverse]
  | cur, c :: s =>
    if isspace c then (if cur = [] then wordsAux [] s else cur.reverse :: wordsAux [] s)
    else wordsAux (c :: cur) s

/-- The whitespace-separated words of a string. -/
def words (s : Str) : List Str := wordsAux [] s

/-- The `n`-th word read by `stream >> ...`; a read that fails leaves the (empty) target
unchanged. -/
def word (s : Str) (n : Nat) : Str := (words s).getD n []

/-- All the pieces read by `while (std::getline(stream, piece, delim))`, the piece being
read kept reversed in `cur`; `fresh` tells that nothing was extracted for it yet. -/
def getlinesAux (delim : Char) : Str → Bool → Str → List Str
  | cur, fresh, [] => if fresh then [] else [cur.reverse]
  | cur, _, c :: s =>
    if c = delim then cur.reverse :: getlinesAux delim [] true s
    else getlinesAux delim (c :: cur) false s

/-- The pieces read by repeated `std::getline(stream, piece, delim)`. -/
def getlines (delim : Char) (s : Str) : List Str := getlinesAux delim [] true s

/-- The test `s.front() == '"' && s.back() == '"'`. -/
def quoted (s : Str) : Bool := s.head? = some '"' && s.getLast? = some '"'

/-- The expression `s.substr(1, s.size() - 2)` for a non-empty `s`. -/
def unquote (s : Str) : Str := (s.drop 1).take (min (szSub s.length 2) (s.length - 1))

/-- Value of a decimal digit. -/
def digitVal (c : Char) : Nat := c.toNat - 48

/-- Test for a decimal digit. -/
def isDigit (c : Char) : Bool := 48 ≤ c.toNat && c.toNat ≤ 57

/-- The number denoted by a list of digits. -/
def digitsVal (ds : Str) : Nat := ds.foldl (fun n c => 10 * n + digitVal c) 0

/-- The function `std::stoi(s)`: `strtol` skips white space, reads an optional sign and the
longest run of digits; no digit is `invalid_argument`, a value outside `int` is
`out_of_range`. -/
def stoi (s : Str) : Except Exn Int :=
  let s1 := s.dropWhile isspace
  let neg := s1.head? = some '-'
  let s2 := if s1.head? = some '-' ∨ s1.head? = some '+' then s1.drop 1 else s1
  let ds := s2.takeWhile isDigit
  if ds = [] then .error .invalid_argument
  else
    let v : Int := if neg then -(digitsVal ds : Int) else (digitsVal ds : Int)
    if v < -2147483648 ∨ 2147483647 < v then .error .out_of_range else .ok v

/-- Decimal digits of a natural number, most significant first (`fuel` bounds the length). -/
def natDigits : Nat → Nat → Str → Str
  | 0, _, acc => acc
  | fuel + 1, n, acc =>
    let acc1 := Char.ofNat (48 + n % 10) :: acc
    if n / 10 = 0 then acc1 else natDigits fuel (n / 10) acc1

/-- The text `operator<<` writes for an `int`. -/
def intToStr (i : Int) : Str :=
  if i < 0 then '-' :: natDigits (i.natAbs + 1) i.natAbs [] else natDigits (i.natAbs + 1) i.natAbs []

/-! ## Data model (`database.hpp`) -/

/-- The enumeration `DataType`. -/
inductive DataType
  | INT | FLOAT | STRING | BOOL
  deriving DecidableEq, Repr

/-- The type `Value = std::variant<int, float, std::string, bool>`. -/
inductive Value
  | int (i : Int)
  | float (bits : Nat)
  | string (s : Str)
  | bool (b : Bool)
  deriving DecidableEq, Repr

/-- NaN test on a binary32 bit pattern. -/
def floatIsNaN (a : Nat) : Bool := a % 2 ^ 31 > 2139095040

/-- Order key of a binary32 bit pattern that is not a NaN. -/
def floatKey (a : Nat) : Int := if a / 2 ^ 31 % 2 = 1 then -((a % 2 ^ 31 : Nat) : Int) else ((a % 2 ^ 31 : Nat) : Int)

/-- The comparison `a == b` of two `float`s. -/
def floatEq (a b : Nat) : Bool := !floatIsNaN a && !floatIsNaN b && floatKey a = floatKey b

/-- The comparison `a < b` of two `float`s. -/
def floatLt (a b : Nat) : Bool := !floatIsNaN a && !floatIsNaN b && floatKey a < floatKey b

/-- The comparison `operator==` of `std::variant`: same alternative and equal payloads. -/
def Value.eq : Value → Value → Bool
  | .int a, .int b => a = b
  | .float a, .float b => floatEq a b
  | .string a, .string b => a = b
  | .bool a, .bool b => a = b
  | _, _ => false

/-- The alternative held by a value, as a `DataType`. -/
def Value.tag : Value → DataType
  | .int _ => .INT
  | .float _ => .FLOAT
  | .string _ => .STRING
  | .bool _ => .BOOL

/-- The struct `Column`. -/
structure Column where
  name : Str
  type : DataType
  deriving DecidableEq, Repr

/-- The struct `Row`. -/
structure Row where
  values : List Value
  deriving DecidableEq, Repr

/-- The struct `Table`; `primaryKeyColumn` is initialised to `"ID"`. -/
structure Table where
  name : Str
  columns : List Column
  rows : List Row
  primaryKeyColumn : Str := ['I', 'D']
  deriving DecidableEq, Repr

/-- The struct `Database`. -/
structure Database where
  tables : List Table
  deriving DecidableEq, Repr

/-- The function `dataTypeToString`. -/
def dataTypeToString : DataType → Str
  | .INT => "INT".toList
  | .FLOAT => "FLOAT".toList
  | .STRING => "STRING".toList
  | .BOOL => "BOOLEAN".toList

/-! ## Table engine (`database.cpp`) -/

/-- The value `Table::addColumn` appends to every existing row. -/
def defaultFill : DataType → Value
  | .INT => .int 0
  | .FLOAT => .float 0
  | .STRING => .string []
  | .BOOL => .bool false

/-- The method `Table::addColumn`. -/
def Table.addColumn (t : Table) (columnName : Str) (type : DataType) : Table :=
  { t with
    columns := t.columns ++ [{ name := columnName, type := type }]
    rows := t.rows.map (fun row => { values := row.values ++ [defaultFill type] }) }

/-- The loop of `Table::addRow` that finds the primary-key column: the first index whose
column is named `pk`. -/
def findColumn (pk : Str) : List Column → Option Nat
  | [] => none
  | c :: cs => if c.name = pk then some 0 else (findColumn pk cs).map (· + 1)

/-- The loop of `Table::addRow` over the existing rows: is there a row that has a cell at
`pkIndex` equal to `newPK`? -/
def pkClash (pkIndex : Nat) (newPK : Value) : List Row → Bool
  | [] => false
  | row :: rows =>
    match row.values[pkIndex]? with
    | some cell => if cell.eq newPK then true else pkClash pkIndex newPK rows
    | none => pkClash pkIndex newPK rows

/-- The method `Table::addRow`: the table it leaves and the exception it throws, if any. -/
def Table.addRow (t : Table) (values : List Value) : Table × Option Exn :=
  if values.length ≠ t.columns.length then (t, some .valueCount)
  else
    match findColumn t.primaryKeyColumn t.columns with
    | none => (t, some .pkNotFound)
    | some pkIndex =>
      match values[pkIndex]? with
      | none => (t, some .undefined_behaviour)
      | some newPK =>
        if pkClash pkIndex newPK t.rows then (t, some (.pkViolation t.primaryKeyColumn))
        else ({ t with rows := t.rows ++ [{ values := values }] }, none)

/-! ## Database (`database.cpp`) -/

/-- The loop of `Database::createTable`, `Database::dropTable` and `Database::getTable`:
the first index whose table is named `tableName`. -/
def findTable (tableName : Str) : List Table → Option Nat
  | [] => none
  | t :: ts => if t.name = tableName then some 0 else (findTable tableName ts).map (· + 1)

/-- The method `Database::getTable`: the position the returned pointer refers to together
with the table found there, `none` for `nullptr`. -/
def Database.getTable (db : Database) (tableName : Str) : Option (Nat × Table) :=
  match findTable tableName db.tables with
  | none => none
  | some i => (db.tables[i]?).map (fun t => (i, t))

/-- Assignment through a pointer returned by `Database::getTable`. -/
def Database.setTable (db : Database) (i : Nat) (t : Table) : Database :=
  { tables := db.tables.set i t }

/-- The method `Database::createTable`. -/
def Database.createTable (db : Database) (tableName : Str) (columns : List Column) :
    Database × Option Exn :=
  match findTable tableName db.tables with
  | some _ => (db, some .tableExists)
  | none => ({ tables := db.tables ++ [{ name := tableName, columns := columns, rows := [] }] }, none)

/-- The method `Database::dropTable`. -/
def Database.dropTable (db : Database) (tableName : Str) : Database × Option Exn :=
  match findTable tableName db.tables with
  | some i => ({ tables := db.tables.eraseIdx i }, none)
  | none => (db, some .tableMissing)

/-- What the program takes from the C++ library: the text conversions of `float`. -/
structure Env where
  /-- the function `std::stof`, giving a binary32 bit pattern -/
  stof : Str → Except Exn Nat
  /-- the text `operator<<` writes for a `float` -/
  floatToStr : Nat → Str

/-- The file system at the time a command runs. -/
structure Files where
  /-- the content of the file at a path, `none` when it cannot be opened for reading -/
  readFile : Str → Option Str
  /-- whether the file at a path can be opened for writing -/
  writable : Str → Bool

/-- The text written for one cell by the visitor in `Database::saveToFile`.  The parameter
of the generic lambda is declared `const auto& val`, so `decltype(val)` is a reference type
and neither `std::is_same_v<decltype(val), std::string>` nor
`std::is_same_v<decltype(val), bool>` holds: every alternative takes the last branch,
`file << " " << val`, which writes a string as it is and a `bool` as `1` or `0`. -/
def saveCell (E : Env) : Value → Str
  | .int i => ' ' :: intToStr i
  | .float f => ' ' :: E.floatToStr f
  | .string s => ' ' :: s
  | .bool b => ' ' :: (if b then ['1'] else ['0'])

/-- The loop writing the cells of a row, a comma after each one but the last. -/
def saveCells (E : Env) : List Value → Str
  | [] => []
  | [v] => saveCell E v
  | v :: vs => saveCell E v ++ ',' :: saveCells E vs

/-- The loop writing the column definitions, a comma after each one but the last. -/
def saveColumns : List Column → Str
  | [] => []
  | [c] => ' ' :: c.name ++ ' ' :: dataTypeToString c.type
  | c :: cs => ' ' :: c.name ++ ' ' :: dataTypeToString c.type ++ ',' :: saveColumns cs

/-- The text written for one table. -/
def saveTable (E : Env) (t : Table) : Str :=
  "TABLE ".toList ++ t.name ++ '\n' ::
  "COLUMNS:".toList ++ saveColumns t.columns ++ '\n' ::
  (t.rows.map (fun row => "ROW:".toList ++ saveCells E row.values ++ ['\n'])).flatten ++
  "END_TABLE\n".toList

/-- The text `Database::saveToFile` writes once the file is open. -/
def Database.saveText (E : Env) (db : Database) : Str := (db.tables.map (saveTable E)).flatten

/-- The method `Database::saveToFile`: the text written to the file at `path`. -/
def Database.saveToFile (E : Env) (F : Files) (db : Database) (path : Str) : Except Exn Str :=
  if !F.writable path then .error (.cannotWrite path)
  else .ok (db.saveText E)

/-- Removal of leading and trailing blanks and tabs from a piece of a `ROW:` line. -/
def trimBlanks (s : Str) : Str :=
  ((s.dropWhile (fun c => c = ' ' || c = '\t')).reverse.dropWhile (fun c => c = ' ' || c = '\t')).reverse

/-- The type named by a piece of a `COLUMNS:` line. -/
def loadType (typeStr : Str) : Except Exn DataType :=
  if typeStr = "INT".toList then .ok .INT
  else if typeStr = "FLOAT".toList then .ok .FLOAT
  else if typeStr = "STRING".toList then .ok .STRING
  else if typeStr = "BOOL".toList ∨ typeStr = "BOOLEAN".toList then .ok .BOOL
  else .error (.unknownColumnType typeStr)

/-- The loop over the pieces of a `COLUMNS:` line, appending to `columns`. -/
def loadColumns (columns : List Column) : List Str → Except Exn (List Column)
  | [] => .ok columns
  | token :: rest =>
    match loadType (word token 1) with
    | .error e => .error e
    | .ok type => loadColumns (columns ++ [{ name := word token 0, type := type }]) rest

/-- The conversion of one trimmed piece of a `ROW:` line inside the `try` block; whatever is
thrown there is replaced by the conversion failure of the `catch (...)` clause. -/
def loadValue (E : Env) (column : Column) (token : Str) : Except Exn Value :=
  let failure : Exn := .conversionFailed token column.name
  match column.type with
  | .INT => match stoi token with
    | .ok i => .ok (.int i)
    | .error _ => .error failure
  | .FLOAT => match E.stof token with
    | .ok f => .ok (.float f)
    | .error _ => .error failure
  | .STRING => .ok (.string (if quoted token then unquote token else token))
  | .BOOL =>
    if token = "true".toList ∨ token = "1".toList then .ok (.bool true)
    else if token = "false".toList ∨ token = "0".toList then .ok (.bool false)
    else .error failure

/-- The loop over the pieces of a `ROW:` line; `rowValues` holds the values read so far and
their number is `colIndex`. -/
def loadRow (E : Env) (currentTable : Table) (rowValues : List Value) : List Str → Except Exn (List Value)
  | [] =>
    if rowValues.length ≠ currentTable.columns.length then .error (.rowCount currentTable.name)
    else .ok rowValues
  | token :: rest =>
    match currentTable.columns[rowValues.length]? with
    | none => .error (.tooManyValues currentTable.name)
    | some column =>
      match loadValue E column (trimBlanks token) with
      | .error e => .error e
      | .ok v => loadRow E currentTable (rowValues ++ [v]) rest

/-- The body of the `while (std::getline(file, line))` loop of `Database::loadFromFile`,
run over the lines of the file; the state is the table list and `currentTable`. -/
def loadLines (E : Env) (tables : List Table) (currentTable : Table) :
    List Str → List Table × Option Exn
  | [] => (tables, none)
  | line :: rest =>
    if startsWith line "TABLE ".toList then
      loadLines E tables { name := line.drop 6, columns := [], rows := [] } rest
    else if startsWith line "COLUMNS:".toList then
      match loadColumns [] (getlines ',' (line.drop 8)) with
      | .error e => (tables, some e)
      | .ok columns => loadLines E tables { currentTable with columns := columns } rest
    else if startsWith line "ROW:".toList then
      match loadRow E currentTable [] (getlines ',' (line.drop 4)) with
      | .error e => (tables, some e)
      | .ok rowValues =>
        loadLines E tables { currentTable with rows := currentTable.rows ++ [{ values := rowValues }] } rest
    else if line = "END_TABLE".toList then
      loadLines E (tables ++ [currentTable]) currentTable rest
    else loadLines E tables currentTable rest

/-- What `Database::loadFromFile` does once the file is open: `tables.clear()`, then the
line loop from a default-constructed `currentTable`. -/
def loadText (E : Env) (text : Str) : List Table × Option Exn :=
  loadLines E [] { name := [], columns := [], rows := [] } (getlines '\n' text)

/-- The method `Database::loadFromFile`: the database it leaves and the exception it
throws, if any. -/
def Database.loadFromFile (E : Env) (F : Files) (db : Database) (path : Str) :
    Database × Option Exn :=
  match F.readFile path with
  | none => (db, some (.cannotRead path))
  | some text => ({ tables := (loadText E text).1 }, (loadText E text).2)

/-! ## Command classification and execution (`CommandParser.cpp`) -/

/-- The enumeration `CommandType`. -/
inductive CommandType
  | CREATE_TABLE | INSERT | SELECT | DROP_TABLE | ALTER_TABLE | UPDATE | SAVE_TO | LOAD_FROM | UNKNOWN
  deriving DecidableEq, Repr

/-- The method `CommandParser::identifyCommand`. -/
def identifyCommand (input : Str) : CommandType :=
  let upper := upperStr input
  if startsWith upper "CREATE_TABLE".toList then .CREATE_TABLE
  else if startsWith upper "INSERT INTO".toList then .INSERT
  else if startsWith upper "SELECT".toList then .SELECT
  else if startsWith upper "DROP_TABLE".toList then .DROP_TABLE
  else if startsWith upper "ALTER TABLE".toList || startsWith upper "ALTER_TABLE".toList then .ALTER_TABLE
  else if startsWith upper "UPDATE".toList then .UPDATE
  else if startsWith upper "SAVE TO".toList then .SAVE_TO
  else if startsWith upper "LOAD_FROM".toList then .LOAD_FROM
  else .UNKNOWN

/-- What `executeCommand` prints, one constructor per message; the constructors named
`err...` go to `std::cerr`, the others to standard output. -/
inductive Event
  /-- the message " Syntax error: missing opening parenthesis." -/
  | errMissingParen
  /-- the message " Syntax error: missing column definition." -/
  | errMissingColumnDefs
  /-- the message " Unknown column type: <type>" -/
  | errUnknownColumnType (type : Str)
  /-- the message " Table '<name>' created with <n> columns:" -/
  | tableCreated (name : Str) (count : Nat)
  /-- the message "- <name> : <type>" -/
  | columnListed (name : Str) (type : DataType)
  /-- the message " Syntax error in INSERT command." -/
  | errInsertSyntax
  /-- the message " Table not found: <name>" -/
  | errTableNotFound (name : Str)
  /-- the message " Row inserted into '<name>'." -/
  | rowInserted (name : Str)
  /-- the message " Insert error: <what>" -/
  | errInsert (e : Exn)
  /-- the message " Table '<name>' deleted." -/
  | tableDeleted (name : Str)
  /-- the message " Drop error: <what>" -/
  | errDrop (e : Exn)
  /-- the message " SELECT syntax error: missing FROM." -/
  | errSelectSyntax
  /-- the message " Column not found: <col>" -/
  | errColumnNotFound (col : Str)
  /-- the header line of a SELECT: the selected column names -/
  | header (names : List Str)
  /-- the message " WHERE column not found: <col>" -/
  | errWhereColumn (col : Str)
  /-- the message " Unsupported operator: <op>" -/
  | errOperator (op : Str)
  /-- one output line of a SELECT: the selected cells of a row -/
  | row (cells : List Value)
  /-- the message " Invalid column type: <type>" -/
  | errInvalidColumnType (type : Str)
  /-- the message " Column '<col>' added to table '<table>'." -/
  | columnAdded (col table : Str)
  /-- the message " UPDATE syntax error: must include SET and WHERE." -/
  | errUpdateSyntax
  /-- the message " Column not found." -/
  | errColumnMissing
  /-- the message " Type mismatch in SET value." -/
  | errTypeMismatch
  /-- the message " <n> row(s) updated in '<table>'." -/
  | rowsUpdated (count : Nat) (table : Str)
  /-- the message " SAVE TO syntax error. ..." -/
  | errSaveSyntax
  /-- the message " Database saved to '<path>'." -/
  | saved (path : Str)
  /-- the message " Save error: <what>" -/
  | errSave (e : Exn)
  /-- the message " LOAD FROM syntax error. ..." -/
  | errLoadSyntax
  /-- the message " Database loaded from '<path>'." -/
  | loaded (path : Str)
  /-- the message " Load error: <what>" -/
  | errLoad (e : Exn)
  /-- the message " Unknown command." -/
  | unknownCommand
  deriving DecidableEq, Repr

/-- The result of one call of `executeCommand`: the database it leaves, what it printed,
the exception that left the call (if any) and the file it wrote (path and text, if any). -/
structure Outcome where
  db : Database
  out : List Event
  exn : Option Exn := none
  file : Option (Str × Str) := none
  deriving DecidableEq, Repr

/-- The idiom `if (!s.empty() && s.back() == ';') s.pop_back();`. -/
def popSemicolon (s : Str) : Str := if s.getLast? = some ';' then s.dropLast else s

/-- The type named by an upper-cased type word in CREATE_TABLE and ALTER TABLE. -/
def parseType (type : Str) : Option DataType :=
  if type = "INT".toList then some .INT
  else if type = "FLOAT".toList then some .FLOAT
  else if type = "STRING".toList then some .STRING
  else if type = "BOOLEAN".toList ∨ type = "BOOL".toList then some .BOOL
  else none

/-- The loop of CREATE_TABLE over the comma-separated column definitions: the columns
collected and the warnings printed. -/
def createColumns : List Str → List Column × List Event
  | [] => ([], [])
  | token :: rest =>
    let name := word token 0
    let type := upperStr (word token 1)
    let r := createColumns rest
    match parseType type with
    | some ty => ({ name := name, type := ty } :: r.1, r.2)
    | none => (r.1, Event.errUnknownColumnType type :: r.2)

/-- The CREATE_TABLE case of `executeCommand`. -/
def execCreateTable (input : Str) (db : Database) : Outcome :=
  match findChar '(' input with
  | none => { db := db, out := [.errMissingParen] }
  | some parenIndex =>
    let header := input.take parenIndex
    let tableName := word header 1
    match findChar '(' input, findChar ')' input with
    | some start, some endParen =>
      match substr input (start + 1) (szSub (szSub endParen start) 1) with
      | .error e => { db := db, out := [], exn := some e }
      | .ok columnDefs =>
        let r := createColumns (getlines ',' columnDefs)
        let columns := r.1
        match db.createTable tableName columns with
        | (db1, some e) => { db := db1, out := r.2, exn := some e }
        | (db1, none) =>
          { db := db1
            out := r.2 ++ Event.tableCreated tableName columns.length ::
              columns.map (fun col => Event.columnListed col.name col.type) }
    | _, _ => { db := db, out := [.errMissingColumnDefs] }

/-- The coercion of one piece of the value list of an INSERT by its shape (the same code
stands in the splitting loop and after it, for the last value). -/
def insertValue (E : Env) (current : Str) : Except Exn Value :=
  let trimmed := removeSpaces current
  if quoted trimmed then .ok (.string (unquote trimmed))
  else if trimmed = "true".toList ∨ trimmed = "false".toList then .ok (.bool (trimmed = "true".toList))
  else if (findChar '.' trimmed).isSome then
    match E.stof trimmed with
    | .ok f => .ok (.float f)
    | .error e => .error e
  else
    match stoi trimmed with
    | .ok i => .ok (.int i)
    | .error e => .error e

/-- The splitting loop of INSERT over the characters between the parentheses, followed by
the handling of the last value. -/
def insertSplit (E : Env) : List Value → Str → Bool → Str → Except Exn (List Value)
  | values, current, _, [] =>
    if current ≠ [] then
      match insertValue E current with
      | .ok v => .ok (values ++ [v])
      | .error e => .error e
    else .ok values
  | values, current, inQuotes, c :: raw =>
    let inQuotes1 := if c = '"' then !inQuotes else inQuotes
    if c = ',' ∧ inQuotes1 = false then
      match insertValue E current with
      | .ok v => insertSplit E (values ++ [v]) [] inQuotes1 raw
      | .error e => .error e
    else insertSplit E values (current ++ [c]) inQuotes1 raw

/-- The INSERT case of `executeCommand`. -/
def execInsert (E : Env) (input : Str) (db : Database) : Outcome :=
  let tableName := word input 2
  match findChar '(' input, findChar ')' input with
  | some openParen, some closeParen =>
    match substr input (openParen + 1) (szSub (szSub closeParen openParen) 1) with
    | .error e => { db := db, out := [], exn := some e }
    | .ok raw =>
      match insertSplit E [] [] false raw with
      | .error e => { db := db, out := [], exn := some e }
      | .ok values =>
        match db.getTable tableName with
        | none => { db := db, out := [.errTableNotFound tableName] }
        | some (i, table) =>
          match table.addRow values with
          | (table1, some e) => { db := db.setTable i table1, out := [.errInsert e] }
          | (table1, none) => { db := db.setTable i table1, out := [.rowInserted tableName] }
  | _, _ => { db := db, out := [.errInsertSyntax] }

/-- The DROP_TABLE case of `executeCommand`. -/
def execDropTable (input : Str) (db : Database) : Outcome :=
  let tableName := popSemicolon (word input 1)
  match db.dropTable tableName with
  | (db1, some e) => { db := db1, out := [.errDrop e] }
  | (db1, none) => { db := db1, out := [.tableDeleted tableName] }

/-- The loop of SELECT over the comma-separated names of an explicit column list: the
indices and names selected, or the name that is not a column. -/
def selectColumns (columns : List Column) : List Str → Except Str (List Nat × List Str)
  | [] => .ok ([], [])
  | piece :: rest =>
    let col := removeSpaces piece
    match findColumn col columns with
    | none => .error col
    | some i =>
      match selectColumns columns rest with
      | .error c => .error c
      | .ok r => .ok (i :: r.1, col :: r.2)

/-- The comparison `a <= b` of two `float`s. -/
def floatLe (a b : Nat) : Bool := !floatIsNaN a && !floatIsNaN b && floatKey a ≤ floatKey b

/-- The WHERE block of SELECT for one cell: the value of `show` (which starts as `true`)
and the diagnostics printed. -/
def selectShow (E : Env) (actual : Value) (op valueStr : Str) : Except Exn (Bool × List Event) :=
  match actual with
  | .int val =>
    match stoi valueStr with
    | .error e => .error e
    | .ok cmp =>
      if op = "==".toList then .ok (decide (val = cmp), [])
      else if op = "!=".toList then .ok (decide (val ≠ cmp), [])
      else if op = ">".toList then .ok (decide (val > cmp), [])
      else if op = "<".toList then .ok (decide (val < cmp), [])
      else if op = ">=".toList then .ok (decide (val ≥ cmp), [])
      else if op = "<=".toList then .ok (decide (val ≤ cmp), [])
      else .ok (true, [.errOperator op])
  | .float val =>
    match E.stof valueStr with
    | .error e => .error e
    | .ok cmp =>
      if op = "==".toList then .ok (floatEq val cmp, [])
      else if op = "!=".toList then .ok (!floatEq val cmp, [])
      else if op = ">".toList then .ok (floatLt cmp val, [])
      else if op = "<".toList then .ok (floatLt val cmp, [])
      else if op = ">=".toList then .ok (floatLe cmp val, [])
      else if op = "<=".toList then .ok (floatLe val cmp, [])
      else .ok (true, [.errOperator op])
  | .string s =>
    .ok (decide (s = (if quoted valueStr then unquote valueStr else valueStr)), [])
  | .bool b => .ok (decide (b = decide (valueStr = "true".toList)), [])

/-- The cells `row.values[index]` for the selected indices, `none` when one of them is out
of bounds. -/
def cellsAt (values : List Value) : List Nat → Option (List Value)
  | [] => some []
  | index :: rest =>
    match values[index]?, cellsAt values rest with
    | some v, some vs => some (v :: vs)
    | _, _ => none

/-- The printing of one row of a SELECT after the diagnostics `evs`. -/
def printRow (selectedIndex : List Nat) (row : Row) (evs : List Event) : List Event × Option Exn :=
  match cellsAt row.values selectedIndex with
  | none => (evs, some .undefined_behaviour)
  | some cells => (evs ++ [.row cells], none)

/-- The body of the row loop of SELECT. -/
def selectRow (E : Env) (columns : List Column) (condition : Str) (selectedIndex : List Nat)
    (row : Row) : List Event × Option Exn :=
  if condition ≠ [] then
    let condCol := word condition 0
    let op := word condition 1
    let valueStr := word condition 2
    match findColumn condCol columns with
    | none => ([.errWhereColumn condCol], none)
    | some condIndex =>
      match row.values[condIndex]? with
      | none => ([], some .undefined_behaviour)
      | some actual =>
        match selectShow E actual (removeSpaces op) valueStr with
        | .error e => ([], some e)
        | .ok (true, evs) => printRow selectedIndex row evs
        | .ok (false, evs) => (evs, none)
  else printRow selectedIndex row []

/-- The row loop of SELECT. -/
def selectRows (E : Env) (columns : List Column) (condition : Str) (selectedIndex : List Nat) :
    List Row → List Event × Option Exn
  | [] => ([], none)
  | row :: rows =>
    match selectRow E columns condition selectedIndex row with
    | (evs, some e) => (evs, some e)
    | (evs, none) =>
      let r := selectRows E columns condition selectedIndex rows
      (evs ++ r.1, r.2)

/-- The SELECT case of `executeCommand`. -/
def execSelect (E : Env) (input : Str) (db : Database) : Outcome :=
  let query := popSemicolon input
  let upperQuery := upperStr query
  match findStr "FROM".toList upperQuery with
  | none => { db := db, out := [.errSelectSyntax] }
  | some fromPos =>
    match substr query 7 (szSub fromPos 7), substrFrom query (fromPos + 5) with
    | .ok colPart, .ok afterFrom =>
      let parts : Except Exn (Str × Str) :=
        match findStr "WHERE".toList upperQuery with
        | some wherePos =>
          match substr afterFrom 0 (szSub (szSub wherePos fromPos) 6), substrFrom query (wherePos + 6) with
          | .ok tableName, .ok condition => .ok (tableName, condition)
          | .error e, _ => .error e
          | _, .error e => .error e
        | none => .ok (afterFrom, [])
      match parts with
      | .error e => { db := db, out := [], exn := some e }
      | .ok (tableName0, condition) =>
        let tableName := removeSpaces tableName0
        match db.getTable tableName with
        | none => { db := db, out := [.errTableNotFound tableName] }
        | some (_, table) =>
          let selected : Except Str (List Nat × List Str) :=
            if (findChar '*' colPart).isSome then
              .ok (List.range table.columns.length, table.columns.map (·.name))
            else selectColumns table.columns (getlines ',' colPart)
          match selected with
          | .error col => { db := db, out := [.errColumnNotFound col] }
          | .ok (selectedIndex, selectedNames) =>
            let r := selectRows E table.columns condition selectedIndex table.rows
            { db := db, out := Event.header selectedNames :: r.1, exn := r.2 }
    | .error e, _ => { db := db, out := [], exn := some e }
    | _, .error e => { db := db, out := [], exn := some e }

/-- The ALTER_TABLE case of `executeCommand`. -/
def execAlterTable (input : Str) (db : Database) : Outcome :=
  let cleanInput := (popSemicolon input).map (fun c => if c = '_' then ' ' else c)
  let alter := word cleanInput 0
  let tableKeyword := word cleanInput 1
  let tableName := word cleanInput 2
  let columnName := word cleanInput 4
  let typeStr := word cleanInput 5
  if alter ≠ "ALTER".toList ∧ alter ≠ "alter".toList then { db := db, out := [] }
  else if tableKeyword ≠ "TABLE".toList ∧ tableKeyword ≠ "table".toList then { db := db, out := [] }
  else
    match db.getTable tableName with
    | none => { db := db, out := [.errTableNotFound tableName] }
    | some (i, t) =>
      match parseType (upperStr typeStr) with
      | none => { db := db, out := [.errInvalidColumnType (upperStr typeStr)] }
      | some type =>
        { db := db.setTable i (t.addColumn columnName type)
          out := [.columnAdded columnName tableName] }

/-- The column loop of UPDATE, which does not stop at the first hit: the last index whose
column is named `name`. -/
def findLastColumn (name : Str) : List Column → Option Nat
  | [] => none
  | c :: cs =>
    match findLastColumn name cs with
    | some i => some (i + 1)
    | none => if c.name = name then some 0 else none

/-- The coercion of the SET literal of UPDATE by the type of the target column; `none`
when the `catch (...)` clause is reached. -/
def updateNewValue (E : Env) (targetType : DataType) (newValueStr : Str) : Option Value :=
  match targetType with
  | .INT => match stoi newValueStr with
    | .ok i => some (.int i)
    | .error _ => none
  | .FLOAT => match E.stof newValueStr with
    | .ok f => some (.float f)
    | .error _ => none
  | .STRING => some (.string (if quoted newValueStr then unquote newValueStr else newValueStr))
  | .BOOL => some (.bool (decide (newValueStr = "true".toList)))

/-- The test of one cell against the WHERE literal in the row loop of UPDATE. -/
def updateMatch (E : Env) (actual : Value) (condValueStr : Str) : Except Exn Bool :=
  match actual with
  | .int val => match stoi condValueStr with
    | .ok cmp => .ok (decide (val = cmp))
    | .error e => .error e
  | .float val => match E.stof condValueStr with
    | .ok cmp => .ok (floatEq val cmp)
    | .error e => .error e
  | .string s => .ok (decide (s = (if quoted condValueStr then unquote condValueStr else condValueStr)))
  | .bool b => .ok (decide (b = decide (condValueStr = "true".toList)))

/-- The row loop of UPDATE: the rows it leaves, `updatedCount`, and the exception that
stopped it, if any. -/
def updateRows (E : Env) (condIndex targetIndex : Nat) (newValue : Value) (condValueStr : Str) :
    List Row → List Row × Nat × Option Exn
  | [] => ([], 0, none)
  | row :: rows =>
    match row.values[condIndex]? with
    | none => (row :: rows, 0, some .undefined_behaviour)
    | some actual =>
      match updateMatch E actual condValueStr with
      | .error e => (row :: rows, 0, some e)
      | .ok false =>
        let r := updateRows E condIndex targetIndex newValue condValueStr rows
        (row :: r.1, r.2.1, r.2.2)
      | .ok true =>
        if targetIndex < row.values.length then
          let r := updateRows E condIndex targetIndex newValue condValueStr rows
          ({ values := row.values.set targetIndex newValue } :: r.1, r.2.1 + 1, r.2.2)
        else (row :: rows, 0, some .undefined_behaviour)

/-- The pieces UPDATE takes from its line. -/
structure UpdateStmt where
  tableName : Str
  targetCol : Str
  newValueStr : Str
  condCol : Str
  op : Str
  condValueStr : Str
  deriving DecidableEq, Repr

/-- The parsing part of the UPDATE case: `none` for the syntax error, an exception when a
`substr` throws. -/
def parseUpdate (input : Str) : Option (Except Exn UpdateStmt) :=
  let cleanInput := popSemicolon input
  match findStr "SET".toList cleanInput, findStr "WHERE".toList cleanInput with
  | some setPos, some wherePos =>
    match substr cleanInput 7 (szSub setPos 7),
          substr cleanInput (setPos + 4) (szSub (szSub wherePos setPos) 4),
          substrFrom cleanInput (wherePos + 6) with
    | .ok tableName0, .ok setClause, .ok whereClause =>
      some (.ok
        { tableName := removeSpaces tableName0
          targetCol := removeSpaces (match findChar '=' setClause with
            | some k => setClause.take k
            | none => setClause)
          newValueStr := removeSpaces (match findChar '=' setClause with
            | some k => (getlines '\n' (setClause.drop (k + 1))).headD []
            | none => [])
          condCol := removeSpaces (word whereClause 0)
          op := word whereClause 1
          condValueStr := removeSpaces (word whereClause 2) })
    | .error e, _, _ => some (.error e)
    | _, .error e, _ => some (.error e)
    | _, _, .error e => some (.error e)
  | _, _ => none

/-- The evaluation part of the UPDATE case, from the table lookup on. -/
def runUpdate (E : Env) (s : UpdateStmt) (db : Database) : Outcome :=
  match db.getTable s.tableName with
  | none => { db := db, out := [.errTableNotFound s.tableName] }
  | some (i, table) =>
    match findLastColumn s.targetCol table.columns, findLastColumn s.condCol table.columns with
    | some targetIndex, some condIndex =>
      match table.columns[targetIndex]? with
      | none => { db := db, out := [], exn := some .undefined_behaviour }
      | some targetColumn =>
        match updateNewValue E targetColumn.type s.newValueStr with
        | none => { db := db, out := [.errTypeMismatch] }
        | some newValue =>
          match updateRows E condIndex targetIndex newValue s.condValueStr table.rows with
          | (rows1, _, some e) =>
            { db := db.setTable i { table with rows := rows1 }, out := [], exn := some e }
          | (rows1, updatedCount, none) =>
            { db := db.setTable i { table with rows := rows1 }
              out := [.rowsUpdated updatedCount s.tableName] }
    | _, _ => { db := db, out := [.errColumnMissing] }

/-- The UPDATE case of `executeCommand`. -/
def execUpdate (E : Env) (input : Str) (db : Database) : Outcome :=
  match parseUpdate input with
  | none => { db := db, out := [.errUpdateSyntax] }
  | some (.error e) => { db := db, out := [], exn := some e }
  | some (.ok s) => runUpdate E s db

/-- The path of SAVE TO and LOAD_FROM: the text between the first and the last double
quote of the line, `none` for the syntax error. -/
def quotedPath (input : Str) : Option (Except Exn Str) :=
  match findChar '"' input, rfindChar '"' input with
  | some quoteStart, some quoteEnd =>
    if quoteEnd ≤ quoteStart then none
    else some (substr input (quoteStart + 1) (szSub (szSub quoteEnd quoteStart) 1))
  | _, _ => none

/-- The SAVE_TO case of `executeCommand`. -/
def execSaveTo (E : Env) (F : Files) (input : Str) (db : Database) : Outcome :=
  match quotedPath input with
  | none => { db := db, out := [.errSaveSyntax] }
  | some (.error e) => { db := db, out := [], exn := some e }
  | some (.ok path) =>
    match db.saveToFile E F path with
    | .error e => { db := db, out := [.errSave e] }
    | .ok text => { db := db, out := [.saved path], file := some (path, text) }

/-- The LOAD_FROM case of `executeCommand`. -/
def execLoadFrom (E : Env) (F : Files) (input : Str) (db : Database) : Outcome :=
  match quotedPath input with
  | none => { db := db, out := [.errLoadSyntax] }
  | some (.error e) => { db := db, out := [], exn := some e }
  | some (.ok path) =>
    match db.loadFromFile E F path with
    | (db1, some e) => { db := db1, out := [.errLoad e] }
    | (db1, none) => { db := db1, out := [.loaded path] }

/-- The method `CommandParser::executeCommand`. -/
def executeCommand (E : Env) (F : Files) (input : Str) (db : Database) : Outcome :=
  match identifyCommand input with
  | .CREATE_TABLE => execCreateTable input db
  | .INSERT => execInsert E input db
  | .DROP_TABLE => execDropTable input db
  | .SELECT => execSelect E input db
  | .ALTER_TABLE => execAlterTable input db
  | .UPDATE => execUpdate E input db
  | .SAVE_TO => execSaveTo E F input db
  | .LOAD_FROM => execLoadFrom E F input db
  | .UNKNOWN => { db := db, out := [.unknownCommand] }

/-! ## The SELECT case in two parts, and the two output streams -/

/-- Every row of the table has as many cells as the table has columns. -/
def Table.rowsFit (t : Table) : Prop := ∀ row ∈ t.rows, row.values.length = t.columns.length

/-- The position `k` is the primary-key index of the table: the first column named by
`primaryKeyColumn` stands there. -/
def Table.IsPkIndex (t : Table) (k : Nat) : Prop :=
  (∃ c, t.columns[k]? = some c ∧ c.name = t.primaryKeyColumn) ∧
    ∀ (j : Nat) (c : Column), j < k → t.columns[j]? = some c → c.name ≠ t.primaryKeyColumn

/-- No two rows of the table hold equal cells in the primary-key column. -/
def Table.pkUnique (t : Table) : Prop :=
  ∀ k, t.IsPkIndex k → ∀ (i j : Nat) (ri rj : Row) (ci cj : Value),
    t.rows[i]? = some ri → t.rows[j]? = some rj →
    ri.values[k]? = some ci → rj.values[k]? = some cj → ci.eq cj = true → i = j

/-- The database states the program can be in: it starts with no table and hands each
line to `executeCommand`, whatever the files are at that moment; it goes on to the next line
only if no exception left the call. -/
inductive Reachable (E : Env) : Database → Prop
  | init : Reachable E { tables := [] }
  | step {db : Database} (F : Files) (input : Str) :
      Reachable E db → (executeCommand E F input db).exn = none →
      Reachable E (executeCommand E F input db).db

/-- A cell equals a literal under tag-matched equality: the literal, coerced to the tag of
the cell the way UPDATE coerces a literal to a type, is a value equal to the cell. -/
def tagMatchedEq (E : Env) (cell : Value) (lit : Str) : Bool :=
  match updateNewValue E cell.tag lit with
  | some w => cell.eq w
  | none => false

/-- The row has a cell at index `c`, equal to the literal under tag-matched equality. -/
def rowMatches (E : Env) (c : Nat) (lit : Str) (row : Row) : Bool :=
  match row.values[c]? with
  | some cell => tagMatchedEq E cell lit
  | none => false

/-! ## The wording of the specification, to be compared with the code -/

/-- The cell tags of every row of the table are the declared types of its columns. -/
def Table.tagsFit (t : Table) : Prop :=
  ∀ row ∈ t.rows, row.values.map Value.tag = t.columns.map (·.type)

/-- The recognised prefixes in the order they are tried, with the kind each one gives. -/
def commandPrefixes : List (Str × CommandType) :=
  [("CREATE_TABLE".toList, .CREATE_TABLE), ("INSERT INTO".toList, .INSERT),
   ("SELECT".toList, .SELECT), ("DROP_TABLE".toList, .DROP_TABLE),
   ("ALTER TABLE".toList, .ALTER_TABLE), ("ALTER_TABLE".toList, .ALTER_TABLE),
   ("UPDATE".toList, .UPDATE), ("SAVE TO".toList, .SAVE_TO), ("LOAD_FROM".toList, .LOAD_FROM)]

/-- Two characters are the same or are one letter in its two cases. -/
def caseVariant (x y : Char) : Prop :=
  x = y ∨ (97 ≤ x.toNat ∧ x.toNat ≤ 122 ∧ y.toNat + 32 = x.toNat) ∨
    (97 ≤ y.toNat ∧ y.toNat ≤ 122 ∧ x.toNat + 32 = y.toNat)

/-- The kind of the first prefix of the table that the text starts with, `UNKNOWN` if there
is none. -/
def firstPrefixKind (upper : Str) : List (Str × CommandType) → CommandType
  | [] => .UNKNOWN
  | p :: rest => if startsWith upper p.1 then p.2 else firstPrefixKind upper rest

/-- The pieces of a text cut at the characters chosen by `cut`, which is given the text
before the character and the character itself; a cutting character belongs to no piece.
`seen` is the text already passed and `cur` the piece being collected. -/
def cutPieces (cut : Str → Char → Bool) (seen cur : Str) : Str → List Str
  | [] => [cur]
  | c :: s =>
    if cut seen c then cur :: cutPieces cut (seen ++ [c]) [] s
    else cutPieces cut (seen ++ [c]) (cur ++ [c]) s

/-- The pieces of a text cut at every comma. -/
def commaPieces (s : Str) : List Str := cutPieces (fun _ c => c = ',') [] [] s

/-- A position preceded by the text `seen` lies inside a double-quoted segment: an odd
number of double quotes stands before it. -/
def insideQuotes (seen : Str) : Bool := seen.count '"' % 2 = 1

/-- The pieces of a text cut at the commas that lie outside double-quoted segments. -/
def quotedPieces (s : Str) : List Str :=
  cutPieces (fun seen c => c = ',' && !insideQuotes seen) [] [] s

/-- A list of pieces without its last piece when that one is empty. -/
def dropEmptyLast (pieces : List Str) : List Str :=
  if pieces.getLast? = some [] then pieces.dropLast else pieces

/-- The values of a list of pieces, each coerced by its shape; the first piece that cannot
be coerced gives the exception. -/
def coerceAll (E : Env) : List Str → Except Exn (List Value)
  | [] => .ok []
  | p :: ps =>
    match insertValue E p with
    | .error e => .error e
    | .ok v =>
      match coerceAll E ps with
      | .error e => .error e
      | .ok vs => .ok (v :: vs)

/-- The decimal integer a token denotes: an optional sign followed by decimal digits only,
at least one. -/
def decimalValue (token : Str) : Option Int :=
  let body := if token.head? = some '-' ∨ token.head? = some '+' then token.drop 1 else token
  if body ≠ [] ∧ body.all isDigit = true then
    some (if token.head? = some '-' then -(digitsVal body : Int) else (digitsVal body : Int))
  else none

/-- The type a type word names, the case of its letters ignored. -/
def typeOfWord (w : Str) : Option DataType :=
  if upperStr w = "INT".toList then some .INT
  else if upperStr w = "FLOAT".toList then some .FLOAT
  else if upperStr w = "STRING".toList then some .STRING
  else if upperStr w = "BOOL".toList ∨ upperStr w = "BOOLEAN".toList then some .BOOL
  else none

/-- The column a definition `<col> <type>` gives, none when its type is not a known one. -/
def columnOfDef (d : Str) : Option Column :=
  (typeOfWord (word d 1)).map (fun ty => { name := word d 0, type := ty })

/-- The integer a token begins with: an optional sign and the longest run of decimal digits
after it, at least one. -/
def integerPrefix (token : Str) : Option Int :=
  let body := if token.head? = some '-' ∨ token.head? = some '+' then token.drop 1 else token
  if body.takeWhile isDigit = [] then none
  else some (if token.head? = some '-' then -(digitsVal (body.takeWhile isDigit) : Int)
    else (digitsVal (body.takeWhile isDigit) : Int))

/-- The pieces of a `ROW:` line can be converted for the columns: there are as many pieces as
columns and each piece, trimmed, converts to the type of its column. -/
def rowConverts (E : Env) (columns : List Column) (pieces : List Str) : Prop :=
  pieces.length = columns.length ∧
    ∀ (i : Nat) (column : Column) (piece : Str), columns[i]? = some column →
      pieces[i]? = some piece → ∃ v, loadValue E column (trimBlanks piece) = .ok v

/-- A text made of the given lines, each followed by the terminator. -/
def joinLines (terminator : Str) (lines : List Str) : Str :=
  (lines.map (· ++ terminator)).flatten

/-- The line `UPDATE n SET a = x WHERE c == v`. -/
def updateLine (n a x c v : Str) : Str :=
  "UPDATE".toList ++ ' ' :: n ++ ' ' :: "SET".toList ++ ' ' :: a ++ ' ' :: '=' :: ' ' :: x ++
    ' ' :: "WHERE".toList ++ ' ' :: c ++ ' ' :: '=' :: '=' :: ' ' :: v

/-- A library for the examples, none of which converts a `float`: its `std::stof` finds no
number in any text. -/
def sampleEnv : Env := { stof := fun _ => .error .invalid_argument, floatToStr := fun _ => [] }

/-- A file system with no file that can be opened. -/
def noFiles : Files := { readFile := fun _ => none, writable := fun _ => false }

/-- A file system in which every path reads as `text`. -/
def oneFile (text : Str) : Files := { readFile := fun _ => some text, writable := fun _ => false }

/-- The columns `ID INT, Name STRING`. -/
def idNameColumns : List Column :=
  [{ name := "ID".toList, type := .INT }, { name := "Name".toList, type := .STRING }]

/-- The columns `ID INT, N INT`. -/
def idNColumns : List Column :=
  [{ name := "ID".toList, type := .INT }, { name := "N".toList, type := .INT }]

/-- The table `T` with the given columns and rows. -/
def sampleTable (columns : List Column) (rows : List (List Value)) : Table :=
  { name := "T".toList, columns := columns, rows := rows.map (fun vs => { values := vs }) }

/-- A database with the single table `T`, of the given columns and rows. -/
def tableT (columns : List Column) (rows : List (List Value)) : Database :=
  { tables := [sampleTable columns rows] }

/-- A save file in which a second `COLUMNS:` line follows a row of the same table. -/
def redeclaredColumnsFile : Str :=
  "TABLE T\nCOLUMNS: ID INT\nROW: 1\nCOLUMNS: ID INT, B INT\nEND_TABLE\n".toList

/-- The columns `ID INT`. -/
def idColumns : List Column := [{ name := "ID".toList, type := .INT }]

/-- The columns `ID INT, Name STRING, Active BOOL`. -/
def idNameActiveColumns : List Column :=
  [{ name := "ID".toList, type := .INT }, { name := "Name".toList, type := .STRING },
   { name := "Active".toList, type := .BOOL }]

/-- A save file with two blocks for a table named `T`. -/
def twoBlocksFile : Str :=
  "TABLE T\nCOLUMNS: ID INT\nEND_TABLE\nTABLE T\nCOLUMNS: ID INT\nROW: 7\nEND_TABLE\n".toList

/-- The lines of a save file with the table `T(ID INT, Name STRING)` and the row
`(1, Ada)`. -/
def adaLines : List Str :=
  ["TABLE T".toList, "COLUMNS: ID INT, Name STRING".toList, "ROW: 1, Ada".toList,
   "END_TABLE".toList]

/-- A save file whose row holds `12abc` for an `INT` column. -/
def digitsThenLettersFile : Str := "TABLE T\nCOLUMNS: ID INT\nROW: 12abc\nEND_TABLE\n".toList

/-- A database with the single table `ASSETS(ID INT, N INT)` and the row `(1, 5)`. -/
def assetsDb : Database :=
  { tables := [{ name := "ASSETS".toList, columns := idNColumns, rows := [{ values := [.int 1, .int 5] }] }] }

theorem findColumn_eq_none_iff (pk : Str) (cols : List Column) :
    findColumn pk cols = none ↔ ∀ c ∈ cols, c.name ≠ pk := by
  induction cols with
  | nil => simp [findColumn]
  | cons c cs ih =>
    by_cases h : c.name = pk
    · simp [findColumn, h]
    · simp [findColumn, h, ih]

theorem findColumn_eq_some_iff (pk : Str) (cols : List Column) (k : Nat) :
    findColumn pk cols = some k ↔
      (∃ c, cols[k]? = some c ∧ c.name = pk) ∧
        ∀ j c, j < k → cols[j]? = some c → c.name ≠ pk := by
  induction cols generalizing k with
  | nil => simp [findColumn]
  | cons c cs ih =>
    by_cases h : c.name = pk
    · simp only [findColumn, h, if_true, Option.some.injEq]
      constructor
      · rintro rfl
        exact ⟨⟨c, by simp, h⟩, fun j _ hj => absurd hj (Nat.not_lt_zero j)⟩
      · rintro ⟨_, hmin⟩
        cases k with
        | zero => rfl
        | succ k => exact absurd h (hmin 0 c (Nat.succ_pos k) (by simp))
    · simp only [findColumn, h, if_false, Option.map_eq_some']
      constructor
      · rintro ⟨a, ha, rfl⟩
        obtain ⟨⟨d, hd, hdn⟩, hmin⟩ := (ih a).1 ha
        refine ⟨⟨d, by simpa using hd, hdn⟩, ?_⟩
        intro j e hj he
        cases j with
        | zero =>
          simp at he
          subst he
          exact h
        | succ j => exact hmin j e (by omega) (by simpa using he)
      · rintro ⟨⟨d, hd, hdn⟩, hmin⟩
        cases k with
        | zero =>
          simp at hd
          subst hd
          exact absurd hdn h
        | succ k =>
          refine ⟨k, (ih k).2 ⟨⟨d, by simpa using hd, hdn⟩, ?_⟩, rfl⟩
          intro j e hj he
          exact hmin (j + 1) e (by omega) (by simpa using he)

theorem findColumn_lt {pk : Str} {cols : List Column} {k : Nat}
    (h : findColumn pk cols = some k) : k < cols.length := by
  obtain ⟨⟨c, hc, _⟩, _⟩ := (findColumn_eq_some_iff pk cols k).1 h
  exact (List.getElem?_eq_some_iff.1 hc).1

theorem pkClash_iff (k : Nat) (v : Value) (rows : List Row) :
    pkClash k v rows = true ↔
      ∃ row ∈ rows, ∃ cell, row.values[k]? = some cell ∧ cell.eq v = true := by
  induction rows with
  | nil => simp [pkClash]
  | cons r rs ih =>
    simp only [pkClash, List.mem_cons, exists_eq_or_imp]
    cases hr : r.values[k]? with
    | none => simp [ih]
    | some cell =>
      by_cases hc : cell.eq v = true
      · simp [hc]
      · simp [hc, ih]

theorem addRow_cases (t : Table) (values : List Value) :
    (∃ e, t.addRow values = (t, some e)) ∨
      t.addRow values = ({ t with rows := t.rows ++ [{ values := values }] }, none) := by
  unfold Table.addRow
  split
  · exact Or.inl ⟨_, rfl⟩
  · split
    · exact Or.inl ⟨_, rfl⟩
    · split
      · exact Or.inl ⟨_, rfl⟩
      · split
        · exact Or.inl ⟨_, rfl⟩
        · exact Or.inr rfl

theorem findLastColumn_eq_none_iff (n : Str) (cols : List Column) :
    findLastColumn n cols = none ↔ ∀ c ∈ cols, c.name ≠ n := by
  induction cols with
  | nil => simp [findLastColumn]
  | cons c cs ih =>
    simp only [findLastColumn, List.mem_cons, forall_eq_or_imp]
    cases h : findLastColumn n cs with
    | some k =>
      have : ¬ ∀ c ∈ cs, c.name ≠ n := fun hh => by
        rw [ih.2 hh] at h
        cases h
      simp [this]
    | none =>
      have := ih.1 h
      by_cases hc : c.name = n
      · simp [hc]
      · simp only [hc, if_false, true_iff]
        exact ⟨hc, this⟩

theorem findLastColumn_of_nodup (n : Str) (cols : List Column) (k : Nat) (c : Column)
    (hnodup : (cols.map (·.name)).Nodup) (hk : cols[k]? = some c) (hn : c.name = n) :
    findLastColumn n cols = some k := by
  induction cols generalizing k with
  | nil => simp at hk
  | cons c0 cs ih =>
    rw [List.map_cons, List.nodup_cons] at hnodup
    cases k with
    | zero =>
      simp at hk
      subst hk
      have hnone : findLastColumn n cs = none := by
        rw [findLastColumn_eq_none_iff]
        intro d hd hdn
        exact hnodup.1 (List.mem_map.2 ⟨d, hd, by rw [hdn, hn]⟩)
      simp [findLastColumn, hnone, hn]
    | succ k =>
      have := ih k hnodup.2 (by simpa using hk)
      simp [findLastColumn, this]

theorem updateMatch_of_coercible (E : Env) (cell : Value) (v : Str)
    (h : updateNewValue E cell.tag v ≠ none) :
    updateMatch E cell v = .ok (tagMatchedEq E cell v) := by
  cases cell with
  | int i =>
    simp only [updateMatch, tagMatchedEq, updateNewValue, Value.tag] at h ⊢
    cases hs : stoi v with
    | error e => simp [hs] at h
    | ok n => simp [Value.eq]
  | float f =>
    simp only [updateMatch, tagMatchedEq, updateNewValue, Value.tag] at h ⊢
    cases hs : E.stof v with
    | error e => simp [hs] at h
    | ok n => simp [Value.eq]
  | string s => simp [updateMatch, tagMatchedEq, updateNewValue, Value.tag, Value.eq]
  | bool b => simp [updateMatch, tagMatchedEq, updateNewValue, Value.tag, Value.eq]

theorem updateRows_eq (E : Env) (ci ti : Nat) (x : Value) (v : Str) (rows : List Row)
    (hci : ∀ row ∈ rows, ci < row.values.length)
    (hti : ∀ row ∈ rows, ti < row.values.length)
    (hv : ∀ row ∈ rows, ∀ cell, row.values[ci]? = some cell → updateNewValue E cell.tag v ≠ none) :
    updateRows E ci ti x v rows =
      (rows.map (fun row => if rowMatches E ci v row then { values := row.values.set ti x } else row),
        rows.countP (rowMatches E ci v), none) := by
  induction rows with
  | nil => rfl
  | cons row rows ih =>
    have ih1 := ih (fun r hr => hci r (List.mem_cons_of_mem _ hr))
      (fun r hr => hti r (List.mem_cons_of_mem _ hr))
      (fun r hr => hv r (List.mem_cons_of_mem _ hr))
    obtain ⟨cell, hc⟩ : ∃ cell, row.values[ci]? = some cell :=
      ⟨_, List.getElem?_eq_getElem (hci row (List.mem_cons_self _ _))⟩
    have hm := updateMatch_of_coercible E cell v (hv row (List.mem_cons_self _ _) _ hc)
    have ht := hti row (List.mem_cons_self _ _)
    cases hb : tagMatchedEq E cell v with
    | false =>
      rw [hb] at hm
      simp [updateRows, hc, hm, ih1, rowMatches, hb]
    | true =>
      rw [hb] at hm
      simp [updateRows, hc, hm, ih1, rowMatches, hb, ht]

theorem Reachable.of_step {E : Env} {db : Database} (db1 : Database) (F : Files) (input : Str)
    (h : Reachable E db) (hex : (executeCommand E F input db).exn = none)
    (hdb : (executeCommand E F input db).db = db1) : Reachable E db1 :=
  hdb ▸ Reachable.step F input h hex

/-! ## The table engine -/

/-- C4: `addRow` throws exactly when the number of values differs from the number of
columns, or no column is named by `primaryKeyColumn`, or some existing row has, at the
primary-key index, a cell equal to the new value there; a wrong number of values is reported
as such whatever else holds; and a call that throws leaves the table as it was. (The rows need
not even have the right number of cells for this.) -/
theorem addRow_fails_iff (t : Table) (values : List Value) :
    ((t.addRow values).2 ≠ none ↔
        (values.length ≠ t.columns.length ∨
          (∀ c ∈ t.columns, c.name ≠ t.primaryKeyColumn) ∨
          ∃ pk newPK, t.IsPkIndex pk ∧ values[pk]? = some newPK ∧
            ∃ row ∈ t.rows, ∃ cell, row.values[pk]? = some cell ∧ cell.eq newPK = true)) ∧
      (values.length ≠ t.columns.length → (t.addRow values).2 = some .valueCount) ∧
      ((t.addRow values).2 ≠ none → (t.addRow values).1 = t) := by
  unfold Table.addRow
  by_cases hlen : values.length = t.columns.length
  · cases hpk : findColumn t.primaryKeyColumn t.columns with
    | none =>
      have hno := (findColumn_eq_none_iff _ _).1 hpk
      refine ⟨⟨fun _ => Or.inr (Or.inl hno), fun _ => by simp [hlen]⟩, fun h => absurd hlen h, fun _ => by simp [hlen]⟩
    | some pk =>
      have hlt : pk < values.length := hlen ▸ findColumn_lt hpk
      have hno : ¬ ∀ c ∈ t.columns, c.name ≠ t.primaryKeyColumn := by
        intro h
        obtain ⟨⟨c, hc, hn⟩, _⟩ := (findColumn_eq_some_iff _ _ _).1 hpk
        exact h c (List.getElem?_mem hc) hn
      have hv : values[pk]? = some values[pk] := List.getElem?_eq_getElem hlt
      by_cases hclash : pkClash pk values[pk] t.rows = true
      · refine ⟨⟨fun _ => Or.inr (Or.inr ⟨pk, values[pk], (findColumn_eq_some_iff _ _ _).1 hpk, hv,
            (pkClash_iff _ _ _).1 hclash⟩),
          fun _ => by simp [hlen, hv, hclash]⟩, fun h => absurd hlen h, fun _ => by simp [hlen, hv, hclash]⟩
      · refine ⟨⟨fun h => absurd h (by simp [hlen, hv, hclash]), ?_⟩, fun h => absurd hlen h,
          fun h => absurd h (by simp [hlen, hv, hclash])⟩
        rintro (h | h | ⟨pk1, newPK, h1, h2, h3⟩)
        · exact absurd hlen h
        · exact absurd h hno
        · have h1 := (findColumn_eq_some_iff _ _ _).2 h1
          rw [hpk] at h1
          cases h1
          rw [hv] at h2
          cases h2
          exact absurd ((pkClash_iff _ _ _).2 h3) hclash
  · simp [hlen]

/-- Witness of C4: three values for the two columns of `T(ID INT, Name STRING)` are refused
for their number, though the first of them also repeats the key of an existing row. -/
theorem addRow_fails_iff_witness :
    ((sampleTable idNameColumns [[.int 1, .string "a".toList]]).addRow
        [.int 1, .string "b".toList, .int 0]).2 = some .valueCount :=
  (addRow_fails_iff (sampleTable idNameColumns [[.int 1, .string "a".toList]])
    [.int 1, .string "b".toList, .int 0]).2.1 (by decide)

/-- C5: when `addRow` does not throw, the rows of the table are the previous rows followed
by one new row holding exactly the given values, and the name, the columns and the name of
the primary-key column are unchanged. -/
theorem addRow_success_appends (t : Table) (values : List Value)
    (h : (t.addRow values).2 = none) :
    (t.addRow values).1.rows = t.rows ++ [{ values := values }] ∧
      (t.addRow values).1.name = t.name ∧
      (t.addRow values).1.columns = t.columns ∧
      (t.addRow values).1.primaryKeyColumn = t.primaryKeyColumn := by
  rcases addRow_cases t values with ⟨e, he⟩ | he
  · rw [he] at h
    cases h
  · rw [he]
    exact ⟨rfl, rfl, rfl, rfl⟩

/-- Witness of C5 on the table `T(ID INT, Name STRING)` with one row. -/
theorem addRow_success_appends_witness :
    ((sampleTable idNameColumns [[.int 1, .string "a".toList]]).addRow
        [.int 2, .string "b".toList]).2 = none ∧
      ((sampleTable idNameColumns [[.int 1, .string "a".toList]]).addRow
        [.int 2, .string "b".toList]).1.rows =
        [{ values := [.int 1, .string "a".toList] }, { values := [.int 2, .string "b".toList] }] :=
  ⟨by decide, (addRow_success_appends _ [.int 2, .string "b".toList] (by decide)).1⟩

/-- C6: `addColumn` appends the column to the schema, keeps the number and the order of the
rows, and turns every row into its old cells followed by the default fill of the type, which
is `0`, `0.0f` (bit pattern `0`), the empty string and `false`. -/
theorem addColumn_effect (t : Table) (columnName : Str) (type : DataType) :
    (t.addColumn columnName type).columns = t.columns ++ [{ name := columnName, type := type }] ∧
      (t.addColumn columnName type).rows.length = t.rows.length ∧
      (∀ (i : Nat) (row : Row), t.rows[i]? = some row →
        (t.addColumn columnName type).rows[i]? =
          some { values := row.values ++ [defaultFill type] }) ∧
      (t.addColumn columnName type).name = t.name ∧
      defaultFill .INT = .int 0 ∧ defaultFill .FLOAT = .float 0 ∧
      defaultFill .STRING = .string [] ∧ defaultFill .BOOL = .bool false := by
  refine ⟨rfl, by simp [Table.addColumn], ?_, rfl, rfl, rfl, rfl, rfl⟩
  intro i row h
  simp [Table.addColumn, h]

/-! ## UPDATE -/

/-- The UPDATE case after the parse: if the line is taken apart into the table `t`, the target
column `a`, the literal `x`, the condition column `c` and the literal `v`, the table has
distinct column names and rows of the right length, `x` coerces to the type of `a` and `v` to
the tag of every cell of `c`, then the cell at `a` is set to the coerced `x` in exactly the
rows whose cell at `c` equals `v` under tag-matched equality, every other cell, row and table
is left as it was, the rows keep their order, and the number of matching rows is reported. -/
theorem update_changes_exactly_matching_rows (E : Env) (F : Files) (input : Str) (db : Database)
    (s : UpdateStmt) (i : Nat) (table : Table) (a c : Nat) (colA colC : Column) (x : Value)
    (hcmd : identifyCommand input = .UPDATE)
    (hparse : parseUpdate input = some (.ok s))
    (_hop : s.op = "==".toList)
    (htable : db.getTable s.tableName = some (i, table))
    (hnodup : (table.columns.map (·.name)).Nodup)
    (ha : table.columns[a]? = some colA ∧ colA.name = s.targetCol)
    (hc : table.columns[c]? = some colC ∧ colC.name = s.condCol)
    (harity : ∀ row ∈ table.rows, row.values.length = table.columns.length)
    (hx : updateNewValue E colA.type s.newValueStr = some x)
    (hv : ∀ row ∈ table.rows, ∀ cell, row.values[c]? = some cell →
      updateNewValue E cell.tag s.condValueStr ≠ none) :
    executeCommand E F input db =
      { db := db.setTable i
          { table with
            rows := table.rows.map (fun row =>
              if rowMatches E c s.condValueStr row then { values := row.values.set a x } else row) }
        out := [.rowsUpdated (table.rows.countP (rowMatches E c s.condValueStr)) s.tableName] } := by
  have hta := findLastColumn_of_nodup s.targetCol table.columns a colA hnodup ha.1 ha.2
  have htc := findLastColumn_of_nodup s.condCol table.columns c colC hnodup hc.1 hc.2
  have hal : a < table.columns.length := (List.getElem?_eq_some_iff.1 ha.1).1
  have hcl : c < table.columns.length := (List.getElem?_eq_some_iff.1 hc.1).1
  have hrows := updateRows_eq E c a x s.condValueStr table.rows
    (fun r hr => by rw [harity r hr]; exact hcl) (fun r hr => by rw [harity r hr]; exact hal) hv
  simp only [executeCommand, hcmd, execUpdate, hparse, runUpdate, htable, hta, htc, ha.1, hx, hrows]


/-- C8, as stated, fails: `UPDATE T SET N = 9 WHERE ID != 1` on `T(ID INT, N INT)` with the
single row `(1, 5)` has the operator token `!=`, yet the row is changed to `(1, 9)` and the
count reported is 1. -/
theorem update_other_operator_still_matches :
    parseUpdate "UPDATE T SET N = 9 WHERE ID != 1".toList =
        some (.ok { tableName := "T".toList, targetCol := "N".toList, newValueStr := "9".toList,
                    condCol := "ID".toList, op := "!=".toList, condValueStr := "1".toList }) ∧
      executeCommand sampleEnv noFiles "UPDATE T SET N = 9 WHERE ID != 1".toList
          (tableT idNColumns [[.int 1, .int 5]]) =
        { db := tableT idNColumns [[.int 1, .int 9]], out := [.rowsUpdated 1 "T".toList] } ∧
      tableT idNColumns [[.int 1, .int 9]] ≠ tableT idNColumns [[.int 1, .int 5]] := by
  decide

/-- C8, amended: UPDATE does not consult the operator token of its WHERE clause.  A line whose
operator token is anything else than `==` has the effect of the line that differs from it in
the operator only and has `==` there: the same database, the same messages (the count of
updated rows among them) and the same exception, if any. -/
theorem update_ignores_operator (E : Env) (F : Files) (input input1 : Str) (s : UpdateStmt)
    (db : Database)
    (hcmd : identifyCommand input = .UPDATE) (hcmd1 : identifyCommand input1 = .UPDATE)
    (hparse : parseUpdate input = some (.ok s))
    (hparse1 : parseUpdate input1 = some (.ok { s with op := "==".toList })) :
    executeCommand E F input db = executeCommand E F input1 db := by
  simp only [executeCommand, hcmd, hcmd1, execUpdate, hparse, hparse1, runUpdate]

/-- Witness of the amended C8: `... WHERE ID != 1` against `... WHERE ID == 1`. -/
theorem update_ignores_operator_witness :
    executeCommand sampleEnv noFiles "UPDATE T SET N = 9 WHERE ID != 1".toList
        (tableT idNColumns [[.int 1, .int 5], [.int 2, .int 5]]) =
      executeCommand sampleEnv noFiles "UPDATE T SET N = 9 WHERE ID == 1".toList
        (tableT idNColumns [[.int 1, .int 5], [.int 2, .int 5]]) :=
  update_ignores_operator sampleEnv noFiles "UPDATE T SET N = 9 WHERE ID != 1".toList
    "UPDATE T SET N = 9 WHERE ID == 1".toList
    { tableName := "T".toList, targetCol := "N".toList, newValueStr := "9".toList,
      condCol := "ID".toList, op := "!=".toList, condValueStr := "1".toList }
    (tableT idNColumns [[.int 1, .int 5], [.int 2, .int 5]])
    (by decide) (by decide) (by decide) (by decide)

/-! ## Save and load -/

/-- C1 (defect in the code): the database with the table `T(ID INT, Name STRING)` and the
row `(1, "a,b")`, reached by a CREATE_TABLE and an INSERT, has rows of the right length and
tags; `saveToFile` writes the string cell without quotes, as `ROW: 1, a,b`, and
`loadFromFile`, which splits a row at every comma, throws on that text and leaves no
table. -/
theorem save_load_roundtrip_fails (E : Env) :
    Reachable E (tableT idNameColumns [[.int 1, .string "a,b".toList]]) ∧
      (∀ t ∈ (tableT idNameColumns [[.int 1, .string "a,b".toList]]).tables, ∀ row ∈ t.rows,
        row.values.map Value.tag = t.columns.map (·.type)) ∧
      (tableT idNameColumns [[.int 1, .string "a,b".toList]]).saveText E =
        "TABLE T\nCOLUMNS: ID INT, Name STRING\nROW: 1, a,b\nEND_TABLE\n".toList ∧
      loadText E ((tableT idNameColumns [[.int 1, .string "a,b".toList]]).saveText E) =
        ([], some (.tooManyValues "T".toList)) := by
  refine ⟨?_, by decide, rfl, rfl⟩
  exact Reachable.of_step _ noFiles "INSERT INTO T VALUES (1, \"a,b\")".toList
    (Reachable.of_step (tableT idNameColumns []) noFiles
      "CREATE_TABLE T(ID INT, Name STRING)".toList Reachable.init rfl rfl) rfl rfl

/-! ## Invariants over the reachable states -/

/-- C2 (defect in the code): LOAD_FROM of a file in which a second `COLUMNS:` line follows a
row loads, without any error, a table `T` with two columns and a row of one cell. -/
theorem load_breaks_row_arity (E : Env) :
    executeCommand E (oneFile redeclaredColumnsFile) "LOAD_FROM \"f\"".toList { tables := [] } =
        { db := { tables := [{ name := "T".toList
                               columns := [{ name := "ID".toList, type := .INT },
                                           { name := "B".toList, type := .INT }]
                               rows := [{ values := [.int 1] }] }] }
          out := [.loaded "f".toList] } ∧
      ∃ db, Reachable E db ∧ ∃ t ∈ db.tables, ¬ t.rowsFit := by
  refine ⟨rfl, _, Reachable.of_step _ (oneFile redeclaredColumnsFile) "LOAD_FROM \"f\"".toList
    Reachable.init rfl rfl, _, List.mem_singleton.2 rfl, ?_⟩
  intro h
  have h1 := h { values := [.int 1] } (List.mem_singleton.2 rfl)
  simp at h1

/-- The run `CREATE_TABLE T(ID INT, N INT)`, `INSERT (1, 5)`, `INSERT (2, 5)`,
`UPDATE T SET ID = 1 WHERE N == 5`, `INSERT (3, 6)`. -/
theorem duplicate_key_reachable (E : Env) :
    Reachable E (tableT idNColumns [[.int 1, .int 5], [.int 1, .int 5], [.int 3, .int 6]]) :=
  Reachable.of_step _ noFiles "INSERT INTO T VALUES (3, 6)".toList
    (Reachable.of_step (tableT idNColumns [[.int 1, .int 5], [.int 1, .int 5]]) noFiles
      "UPDATE T SET ID = 1 WHERE N == 5".toList
      (Reachable.of_step (tableT idNColumns [[.int 1, .int 5], [.int 2, .int 5]]) noFiles
        "INSERT INTO T VALUES (2, 5)".toList
        (Reachable.of_step (tableT idNColumns [[.int 1, .int 5]]) noFiles
          "INSERT INTO T VALUES (1, 5)".toList
          (Reachable.of_step (tableT idNColumns []) noFiles
            "CREATE_TABLE T(ID INT, N INT)".toList Reachable.init rfl rfl)
          rfl rfl)
        rfl rfl)
      rfl rfl)
    rfl rfl

/-- C3 (defect in the code): UPDATE writes the primary-key column without the check INSERT
makes.  After `UPDATE T SET ID = 1 WHERE N == 5` two rows of `T` hold `1` in `ID`, and they
still do after the next INSERT, which succeeds. -/
theorem update_breaks_pk_uniqueness (E : Env) (F : Files) :
    executeCommand E F "INSERT INTO T VALUES (3, 6)".toList
        (tableT idNColumns [[.int 1, .int 5], [.int 1, .int 5]]) =
        { db := tableT idNColumns [[.int 1, .int 5], [.int 1, .int 5], [.int 3, .int 6]]
          out := [.rowInserted "T".toList] } ∧
      ∃ db, Reachable E db ∧ ∃ t ∈ db.tables, ¬ t.pkUnique := by
  refine ⟨rfl, _, duplicate_key_reachable E, _, List.mem_singleton.2 rfl, ?_⟩
  intro h
  have h1 := h 0 ⟨⟨_, rfl, rfl⟩, fun j _ hj => absurd hj (Nat.not_lt_zero j)⟩ 0 1 _ _ _ _
    rfl rfl rfl rfl (by decide)
  cases h1

/-! ## Errors -/

/-- C9 (defect in the code): on the reachable database with the empty table `T(ID INT, N INT)`
a second `CREATE_TABLE T(...)` lets "Table already exists" leave `executeCommand`, and
`INSERT INTO T VALUES (abc, 5)` lets the `std::invalid_argument` of `std::stoi` leave it; so
does `SELECT * FROM T WHERE ID == abc` once the table has a row, after the header is
printed. -/
theorem exception_leaves_executeCommand (E : Env) (F : Files) :
    Reachable E (tableT idNColumns []) ∧
      executeCommand E F "CREATE_TABLE T(ID INT, N INT)".toList (tableT idNColumns []) =
        { db := tableT idNColumns [], out := [], exn := some .tableExists } ∧
      executeCommand E F "INSERT INTO T VALUES (abc, 5)".toList (tableT idNColumns []) =
        { db := tableT idNColumns [], out := [], exn := some .invalid_argument } ∧
      executeCommand E F "SELECT * FROM T WHERE ID == abc".toList (tableT idNColumns [[.int 1, .int 5]]) =
        { db := tableT idNColumns [[.int 1, .int 5]], out := [.header ["ID".toList, "N".toList]],
          exn := some .invalid_argument } :=
  ⟨Reachable.of_step _ noFiles "CREATE_TABLE T(ID INT, N INT)".toList Reachable.init rfl rfl,
    rfl, rfl, rfl⟩

/-- C10 (defect in the code): on the reachable table `T(ID INT, Name STRING)` with the rows
`(1, "abc")` and `(2, 5)`, `UPDATE T SET ID = 9 WHERE Name == abc` changes the first row and
then fails on the second with the `std::invalid_argument` of `std::stoi`: the command ends in
an error and the database is not the one before. -/
theorem update_partial_on_exception (E : Env) (F : Files) :
    Reachable E (tableT idNameColumns [[.int 1, .string "abc".toList], [.int 2, .int 5]]) ∧
      identifyCommand "UPDATE T SET ID = 9 WHERE Name == abc".toList = .UPDATE ∧
      executeCommand E F "UPDATE T SET ID = 9 WHERE Name == abc".toList
          (tableT idNameColumns [[.int 1, .string "abc".toList], [.int 2, .int 5]]) =
        { db := tableT idNameColumns [[.int 9, .string "abc".toList], [.int 2, .int 5]]
          out := [], exn := some .invalid_argument } ∧
      tableT idNameColumns [[.int 9, .string "abc".toList], [.int 2, .int 5]] ≠
        tableT idNameColumns [[.int 1, .string "abc".toList], [.int 2, .int 5]] := by
  refine ⟨?_, by decide, rfl, by decide⟩
  exact Reachable.of_step _ noFiles "INSERT INTO T VALUES (2, 5)".toList
    (Reachable.of_step (tableT idNameColumns [[.int 1, .string "abc".toList]]) noFiles
      "INSERT INTO T VALUES (1, \"abc\")".toList
      (Reachable.of_step (tableT idNameColumns []) noFiles
        "CREATE_TABLE T(ID INT, Name STRING)".toList Reachable.init rfl rfl)
      rfl rfl)
    rfl rfl

/-! ## The database operations -/

theorem findTable_eq_none_iff (name : Str) (ts : List Table) :
    findTable name ts = none ↔ ∀ t ∈ ts, t.name ≠ name := by
  induction ts with
  | nil => simp [findTable]
  | cons t ts ih =>
    by_cases h : t.name = name
    · simp [findTable, h]
    · simp [findTable, h, ih]

theorem findTable_eq_some (name : Str) (ts : List Table) (i : Nat)
    (h : findTable name ts = some i) :
    ∃ pre t post, ts = pre ++ t :: post ∧ pre.length = i ∧ t.name = name ∧
      ∀ u ∈ pre, u.name ≠ name := by
  induction ts generalizing i with
  | nil => simp [findTable] at h
  | cons t ts ih =>
    by_cases hn : t.name = name
    · simp only [findTable, hn, if_true, Option.some.injEq] at h
      exact ⟨[], t, ts, rfl, by simpa using h, hn, by simp⟩
    · simp only [findTable, hn, if_false, Option.map_eq_some'] at h
      obtain ⟨j, hj, rfl⟩ := h
      obtain ⟨pre, u, post, hts, hlen, hu, hpre⟩ := ih j hj
      refine ⟨t :: pre, u, post, by rw [hts]; rfl, by simp [hlen], hu, ?_⟩
      intro v hv
      rcases List.mem_cons.1 hv with rfl | hv
      · exact hn
      · exact hpre v hv

/-- C11: `createTable` throws exactly when some table of the database has the given name,
case respected, and then leaves the database as it was; otherwise the table list becomes the
old list followed by one table with that name, those columns in order, no rows and the
primary-key column `ID`. -/
theorem createTable_contract (db : Database) (tableName : Str) (columns : List Column) :
    ((db.createTable tableName columns).2 ≠ none ↔ ∃ t ∈ db.tables, t.name = tableName) ∧
      ((db.createTable tableName columns).2 ≠ none → (db.createTable tableName columns).1 = db) ∧
      ((db.createTable tableName columns).2 = none →
        (db.createTable tableName columns).1.tables =
          db.tables ++ [{ name := tableName, columns := columns, rows := [],
                          primaryKeyColumn := "ID".toList }]) := by
  unfold Database.createTable
  cases h : findTable tableName db.tables with
  | none =>
    have hno := (findTable_eq_none_iff _ _).1 h
    refine ⟨⟨fun hh => absurd rfl hh, ?_⟩, fun hh => absurd rfl hh, fun _ => rfl⟩
    rintro ⟨t, ht, hn⟩
    exact absurd hn (hno t ht)
  | some i =>
    obtain ⟨pre, t, post, hts, _, hn, _⟩ := findTable_eq_some _ _ _ h
    refine ⟨⟨fun _ => ⟨t, by rw [hts]; simp, hn⟩, fun _ => by simp⟩, fun _ => rfl, fun hh => by simp at hh⟩

/-- C12: `dropTable` throws exactly when no table has the given name, and then leaves the
database as it was; otherwise it removes the first table with that name and keeps every
other table, unchanged and in the same order. -/
theorem dropTable_contract (db : Database) (tableName : Str) :
    ((db.dropTable tableName).2 ≠ none ↔ ∀ t ∈ db.tables, t.name ≠ tableName) ∧
      ((db.dropTable tableName).2 ≠ none → (db.dropTable tableName).1 = db) ∧
      ((db.dropTable tableName).2 = none →
        ∃ pre t post, db.tables = pre ++ t :: post ∧ t.name = tableName ∧
          (∀ u ∈ pre, u.name ≠ tableName) ∧ (db.dropTable tableName).1.tables = pre ++ post) := by
  unfold Database.dropTable
  cases h : findTable tableName db.tables with
  | none =>
    have hno := (findTable_eq_none_iff _ _).1 h
    exact ⟨⟨fun _ => hno, fun _ => by simp⟩, fun _ => rfl, fun hh => by simp at hh⟩
  | some i =>
    obtain ⟨pre, t, post, hts, hlen, hn, hpre⟩ := findTable_eq_some _ _ _ h
    refine ⟨⟨fun hh => absurd rfl hh, fun hno => ?_⟩, fun hh => absurd rfl hh, fun _ => ?_⟩
    · exact absurd hn (hno t (by rw [hts]; simp))
    · refine ⟨pre, t, post, hts, hn, hpre, ?_⟩
      subst hlen
      simp [hts, List.eraseIdx_append_of_length_le]

/-! ## Command classification -/

theorem toupper_lower (x y : Char) (h1 : 97 ≤ x.toNat) (h2 : x.toNat ≤ 122)
    (h : y.toNat + 32 = x.toNat) : toupper x = y ∧ toupper y = y := by
  have hx : x.toNat - 32 = y.toNat := by omega
  have hy : ¬ (97 ≤ y.toNat ∧ y.toNat ≤ 122) := by omega
  constructor
  · simp only [toupper, h1, h2, and_self, if_true, hx]
    exact Char.ofNat_toNat y
  · simp only [toupper, hy, if_false]

theorem toupper_caseVariant (x y : Char) (h : caseVariant x y) : toupper x = toupper y := by
  rcases h with rfl | ⟨h1, h2, h3⟩ | ⟨h1, h2, h3⟩
  · rfl
  · obtain ⟨a, b⟩ := toupper_lower x y h1 h2 h3
    rw [a, b]
  · obtain ⟨a, b⟩ := toupper_lower y x h1 h2 h3
    rw [a, b]

theorem upperStr_caseVariant (a b : Str) (h : List.Forall₂ caseVariant a b) :
    upperStr a = upperStr b := by
  induction h with
  | nil => rfl
  | cons hxy _ ih =>
    simp only [upperStr, List.map_cons] at ih ⊢
    rw [toupper_caseVariant _ _ hxy, ih]

theorem toupper_of_isspace (c : Char) (h : isspace c = true) :
    toupper c = c ∧ isspace (toupper c) = true := by
  simp only [isspace, Bool.or_eq_true, decide_eq_true_eq] at h
  rcases h with ((((h | h) | h) | h) | h) | h <;> subst h <;> decide

theorem startsWith_space (c : Char) (s p : Str) (hc : isspace c = true)
    (hp : ∀ d, p.head? = some d → isspace d = false) (hne : p ≠ []) : startsWith (c :: s) p = false := by
  cases p with
  | nil => exact absurd rfl hne
  | cons d p =>
    have hd := hp d rfl
    have : c ≠ d := fun h => by rw [h, hd] at hc; cases hc
    simp [startsWith, this]

/-- C16: `identifyCommand` gives the kind of the first prefix, in the order of the table,
that the upper-cased line starts with, and `UNKNOWN` when there is none; so two lines that
differ only in the case of their letters get the same kind, and a line that begins with white
space is `UNKNOWN`. -/
theorem identifyCommand_first_prefix (input : Str) :
    identifyCommand input = firstPrefixKind (upperStr input) commandPrefixes ∧
      (∀ input2, List.Forall₂ caseVariant input input2 →
        identifyCommand input2 = identifyCommand input) ∧
      (∀ c rest, input = c :: rest → isspace c = true → identifyCommand input = .UNKNOWN) := by
  refine ⟨?_, ?_, ?_⟩
  · simp only [identifyCommand, firstPrefixKind, commandPrefixes, Bool.or_eq_true]
    split_ifs <;> first | rfl | simp_all
  · intro input2 h
    simp only [identifyCommand, upperStr_caseVariant _ _ h]
  · rintro c rest rfl hc
    obtain ⟨hu, _⟩ := toupper_of_isspace c hc
    have key : ∀ p : Str, (∀ d, p.head? = some d → isspace d = false) → p ≠ [] →
        startsWith (upperStr (c :: rest)) p = false := by
      intro p hp hne
      simp only [upperStr, List.map_cons, hu]
      exact startsWith_space c _ p hc hp hne
    simp only [identifyCommand]
    rw [key _ (by decide) (by decide), key _ (by decide) (by decide), key _ (by decide) (by decide),
      key _ (by decide) (by decide), key _ (by decide) (by decide), key _ (by decide) (by decide),
      key _ (by decide) (by decide), key _ (by decide) (by decide), key _ (by decide) (by decide)]
    rfl

/-! ## Cutting a text into pieces -/

theorem cutPieces_ne_nil (cut : Str → Char → Bool) (seen cur s : Str) :
    cutPieces cut seen cur s ≠ [] := by
  induction s generalizing seen cur with
  | nil => simp [cutPieces]
  | cons c s ih =>
    simp only [cutPieces]
    split
    · simp
    · exact ih _ _

theorem dropEmptyLast_singleton (cur : Str) :
    dropEmptyLast [cur] = if cur = [] then [] else [cur] := by
  by_cases h : cur = []
  · simp [dropEmptyLast, h]
  · simp [dropEmptyLast, h]

theorem dropEmptyLast_cons (p : Str) (ps : List Str) (h : ps ≠ []) :
    dropEmptyLast (p :: ps) = p :: dropEmptyLast ps := by
  cases ps with
  | nil => exact absurd rfl h
  | cons q qs =>
    simp only [dropEmptyLast, List.getLast?_cons_cons]
    split
    · simp
    · rfl

theorem filterMap_dropEmptyLast {β : Type} (f : Str → Option β) (hf : f [] = none)
    (ps : List Str) : (dropEmptyLast ps).filterMap f = ps.filterMap f := by
  unfold dropEmptyLast
  split
  · rename_i h
    have := List.dropLast_append_getLast? [] h
    conv_rhs => rw [← this]
    simp [hf]
  · rfl

theorem insideQuotes_append (seen : Str) (c : Char) :
    insideQuotes (seen ++ [c]) = if c = '"' then !insideQuotes seen else insideQuotes seen := by
  by_cases h : c = '"'
  · subst h
    simp only [insideQuotes, List.count_append, List.count_singleton_self, if_true]
    generalize List.count '"' seen = n
    have : n % 2 = 0 ∨ n % 2 = 1 := by omega
    rcases this with h | h
    · have h2 : (n + 1) % 2 = 1 := by omega
      simp [h, h2]
    · have h2 : (n + 1) % 2 = 0 := by omega
      simp [h, h2]
  · have : List.count '"' [c] = 0 := by
      rw [List.count_eq_zero]
      simpa using fun hh => h hh.symm
    simp [insideQuotes, List.count_append, this, h]

theorem insertSplit_eq (E : Env) (values : List Value) (seen cur raw : Str) :
    insertSplit E values cur (insideQuotes seen) raw =
      match coerceAll E (dropEmptyLast
        (cutPieces (fun seen c => c = ',' && !insideQuotes seen) seen cur raw)) with
      | .error e => .error e
      | .ok vs => .ok (values ++ vs) := by
  induction raw generalizing values seen cur with
  | nil =>
    simp only [insertSplit, cutPieces, dropEmptyLast_singleton]
    by_cases h : cur = []
    · simp [h, coerceAll]
    · simp only [h, if_false, ne_eq, not_false_eq_true, if_true, coerceAll]
      cases insertValue E cur <;> rfl
  | cons c s ih =>
    have hq := insideQuotes_append seen c
    by_cases hc : c = ','
    · subst hc
      have hq1 : insideQuotes (seen ++ [',']) = insideQuotes seen := by
        rw [hq]; simp
      cases hs : insideQuotes seen with
      | false =>
        have ih1 := fun v => ih (values ++ [v]) (seen ++ [',']) []
        rw [hq1, hs] at ih1
        simp only [insertSplit, cutPieces, hs]
        simp only [show (',' : Char) ≠ '"' by decide, if_false, true_and, decide_True, Bool.not_false,
          Bool.and_self, if_true]
        rw [dropEmptyLast_cons _ _ (cutPieces_ne_nil _ _ _ _)]
        simp only [coerceAll]
        cases insertValue E cur with
        | error e => rfl
        | ok v =>
          simp only [ih1 v]
          cases coerceAll E (dropEmptyLast (cutPieces (fun seen c => c = ',' && !insideQuotes seen)
            (seen ++ [',']) [] s)) with
          | error e => rfl
          | ok vs => simp
      | true =>
        have ih1 := ih values (seen ++ [',']) (cur ++ [','])
        rw [hq1, hs] at ih1
        simp only [insertSplit, cutPieces, hs]
        simp only [show (',' : Char) ≠ '"' by decide, if_false, decide_True, Bool.not_true,
          Bool.and_false, Bool.false_eq_true, and_false]
        exact ih1
    · have ih1 := ih values (seen ++ [c]) (cur ++ [c])
      rw [hq] at ih1
      simp only [insertSplit, cutPieces, hc, false_and, if_false, decide_False, Bool.false_and,
        Bool.false_eq_true]
      exact ih1

theorem getlinesAux_eq (seen cur : Str) (fresh : Bool) (s : Str) (h : fresh = true ↔ cur = []) :
    getlinesAux ',' cur fresh s =
      dropEmptyLast (cutPieces (fun _ c => c = ',') seen cur.reverse s) := by
  induction s generalizing seen cur fresh with
  | nil =>
    simp only [getlinesAux, cutPieces, dropEmptyLast_singleton, List.reverse_eq_nil_iff]
    by_cases hc : cur = []
    · simp [hc, h.2 hc]
    · have : fresh = false := by
        cases fresh
        · rfl
        · exact absurd (h.1 rfl) hc
      simp [hc, this]
  | cons c s ih =>
    by_cases hc : c = ','
    · subst hc
      simp only [getlinesAux, cutPieces, if_true, decide_True]
      rw [dropEmptyLast_cons _ _ (cutPieces_ne_nil _ _ _ _),
        ih (seen ++ [',']) [] true (by simp)]
      rfl
    · simp only [getlinesAux, cutPieces, hc, if_false, decide_False, Bool.false_eq_true]
      rw [ih (seen ++ [c]) (c :: cur) false (by simp)]
      simp

theorem getlines_comma (s : Str) : getlines ',' s = dropEmptyLast (commaPieces s) :=
  getlinesAux_eq [] [] true s (by simp)

theorem findChar_lt (ch : Char) (s : Str) (i : Nat) (h : findChar ch s = some i) :
    i < s.length := by
  induction s generalizing i with
  | nil => simp [findChar] at h
  | cons d s ih =>
    simp only [findChar] at h
    split at h
    · cases h
      simp
    · rw [Option.map_eq_some'] at h
      obtain ⟨j, hj, rfl⟩ := h
      have := ih j hj
      simp
      omega

theorem findChar_isSome_iff (ch : Char) (s : Str) : (findChar ch s).isSome = true ↔ ch ∈ s := by
  induction s with
  | nil => simp [findChar]
  | cons d s ih =>
    by_cases h : d = ch
    · simp [findChar, h]
    · have h1 : ¬ ch = d := fun hh => h hh.symm
      simp [findChar, h, h1, ← ih]

theorem substr_between (input : Str) (o c : Nat) (hoc : o < c) (hc : c < input.length)
    (hlen : input.length < 2 ^ 64) :
    substr input (o + 1) (szSub (szSub c o) 1) = .ok ((input.drop (o + 1)).take (c - o - 1)) := by
  have h1 : szSub c o = c - o := by
    simp only [szSub]
    omega
  have h2 : szSub (c - o) 1 = c - o - 1 := by
    simp only [szSub]
    omega
  have h3 : ¬ o + 1 > input.length := by omega
  have h4 : min (c - o - 1) (input.length - (o + 1)) = c - o - 1 := by omega
  simp only [substr, h1, h2, h3, if_false, h4]

/-! ## INSERT -/

theorem coerceAll_length (E : Env) (ps : List Str) (vs : List Value)
    (h : coerceAll E ps = .ok vs) : vs.length = ps.length := by
  induction ps generalizing vs with
  | nil =>
    simp only [coerceAll, Except.ok.injEq] at h
    subst h
    rfl
  | cons p ps ih =>
    simp only [coerceAll] at h
    cases hv : insertValue E p with
    | error e => simp [hv] at h
    | ok v =>
      cases hr : coerceAll E ps with
      | error e => simp [hv, hr] at h
      | ok ws =>
        simp only [hv, hr, Except.ok.injEq] at h
        subst h
        simp [ih ws hr]

theorem insertValue_removeSpaces (E : Env) (p : Str) :
    insertValue E p = insertValue E (removeSpaces p) := by
  simp [insertValue, removeSpaces, List.filter_filter]

theorem execInsert_eq (E : Env) (input : Str) (db : Database) (o c : Nat)
    (ho : findChar '(' input = some o) (hc : findChar ')' input = some c)
    (hoc : o < c) (hlen : input.length < 2 ^ 64) :
    execInsert E input db =
      match coerceAll E (dropEmptyLast (quotedPieces ((input.drop (o + 1)).take (c - o - 1)))) with
      | .error e => { db := db, out := [], exn := some e }
      | .ok values =>
        match db.getTable (word input 2) with
        | none => { db := db, out := [.errTableNotFound (word input 2)] }
        | some (i, table) =>
          match table.addRow values with
          | (table1, some e) => { db := db.setTable i table1, out := [.errInsert e] }
          | (table1, none) => { db := db.setTable i table1, out := [.rowInserted (word input 2)] } := by
  have hsub := substr_between input o c hoc (findChar_lt _ _ _ hc) hlen
  have hsplit := insertSplit_eq E [] [] [] ((input.drop (o + 1)).take (c - o - 1))
  have hq : insideQuotes [] = false := by decide
  rw [hq] at hsplit
  simp only [execInsert, ho, hc, hsub, hsplit, quotedPieces]
  cases coerceAll E (dropEmptyLast (cutPieces (fun seen c => c = ',' && !insideQuotes seen) [] []
    ((input.drop (o + 1)).take (c - o - 1)))) with
  | error e => rfl
  | ok vs =>
    simp only [List.nil_append]

/-- C17, as stated, fails: the text between the parentheses of `INSERT INTO T VALUES (1,)` is
cut by its one comma into two pieces, `1` and the empty piece, but a single value is passed
to `addRow`, which accepts it for the one column of `T(ID INT)`. -/
theorem insert_trailing_comma_one_value :
    quotedPieces "1,".toList = ["1".toList, []] ∧
      executeCommand sampleEnv noFiles "INSERT INTO T VALUES (1,)".toList (tableT idColumns []) =
        { db := tableT idColumns [[.int 1]], out := [.rowInserted "T".toList] } := by
  decide

/-- C17, amended: in an INSERT line whose first `)` comes after its first `(`, the text
between the two is cut into pieces at exactly the commas outside double-quoted segments; an
empty last piece gives no value; every other piece is coerced after all its white space is
removed, and the values passed to `addRow` are those of the pieces, in order and as many as
there are pieces (without an empty last one).  When a piece cannot be coerced the exception
leaves `executeCommand` and `addRow` is not called. -/
theorem insert_values_are_quoted_pieces (E : Env) (F : Files) (input : Str) (db : Database)
    (o c : Nat) (hcmd : identifyCommand input = .INSERT)
    (ho : findChar '(' input = some o) (hc : findChar ')' input = some c)
    (hoc : o < c) (hlen : input.length < 2 ^ 64) :
    (∀ p, insertValue E p = insertValue E (removeSpaces p)) ∧
      (∀ e, coerceAll E (dropEmptyLast (quotedPieces ((input.drop (o + 1)).take (c - o - 1)))) =
          .error e →
        executeCommand E F input db = { db := db, out := [], exn := some e }) ∧
      (∀ values,
        coerceAll E (dropEmptyLast (quotedPieces ((input.drop (o + 1)).take (c - o - 1)))) =
          .ok values →
        values.length =
            (dropEmptyLast (quotedPieces ((input.drop (o + 1)).take (c - o - 1)))).length ∧
          ∀ i table, db.getTable (word input 2) = some (i, table) →
            executeCommand E F input db =
              { db := db.setTable i (table.addRow values).1
                out := [match (table.addRow values).2 with
                        | some e => .errInsert e
                        | none => .rowInserted (word input 2)] }) := by
  have hexec := execInsert_eq E input db o c ho hc hoc hlen
  refine ⟨insertValue_removeSpaces E, ?_, ?_⟩
  · intro e he
    simp only [executeCommand, hcmd, hexec, he]
  · intro values hv
    refine ⟨coerceAll_length E _ _ hv, ?_⟩
    intro i table ht
    simp only [executeCommand, hcmd, hexec, hv, ht]
    rcases h : table.addRow values with ⟨table1, _ | e⟩ <;> rfl

/-- Witness of the amended C17: `INSERT INTO T VALUES (1, "a, b")` passes two values, the
second the string `a,b`. -/
theorem insert_values_are_quoted_pieces_witness :
    executeCommand sampleEnv noFiles "INSERT INTO T VALUES (1, \"a, b\")".toList
        (tableT idNameColumns []) =
      { db := tableT idNameColumns [[.int 1, .string "a,b".toList]]
        out := [.rowInserted "T".toList] } :=
  (((insert_values_are_quoted_pieces sampleEnv noFiles
      "INSERT INTO T VALUES (1, \"a, b\")".toList (tableT idNameColumns []) 21 31
      (by decide) (by decide) (by decide) (by decide) (by decide)).2.2
      [.int 1, .string "a,b".toList] (by decide)).2 0 (sampleTable idNameColumns [])
      (by decide)).trans (by decide)

theorem removeSpaces_eq_self (token : Str) (hws : ∀ c ∈ token, isspace c = false) :
    removeSpaces token = token := by
  simp only [removeSpaces, List.filter_eq_self]
  intro c hc
  simp [hws c hc]

theorem unquote_eq (s : Str) (hne : s ≠ []) (hlen : s.length < 2 ^ 64) :
    unquote s = (s.drop 1).dropLast := by
  have hpos : 0 < s.length := List.length_pos.2 hne
  have h : min (szSub s.length 2) (s.length - 1) = s.length - 1 - 1 := by
    simp only [szSub]
    omega
  simp only [unquote, h, List.dropLast_eq_take, List.length_drop]

theorem stoi_of_decimal (token : Str) (n : Int) (hws : ∀ c ∈ token, isspace c = false)
    (hd : decimalValue token = some n) (hlo : -2147483648 ≤ n) (hhi : n ≤ 2147483647) :
    stoi token = .ok n := by
  have hdw : token.dropWhile isspace = token := by
    cases token with
    | nil => rfl
    | cons c s => simp [List.dropWhile, hws c (List.mem_cons_self _ _)]
  simp only [decimalValue] at hd
  generalize hb : (if token.head? = some '-' ∨ token.head? = some '+' then token.drop 1
    else token) = body at hd
  by_cases hbody : body ≠ [] ∧ body.all isDigit = true
  · rw [if_pos hbody] at hd
    simp only [Option.some.injEq] at hd
    have htw : List.takeWhile isDigit body = body := by
      rw [List.takeWhile_eq_self_iff]
      exact List.all_eq_true.1 hbody.2
    have hr : ¬ (n < -2147483648 ∨ 2147483647 < n) := by omega
    simp only [stoi, hdw, hb, htw, hbody.1, if_false, hd, hr]
  · rw [if_neg hbody] at hd
    cases hd

/-- The coercion of INSERT for a non-empty token without white space: a token that begins and
ends with a double quote gives the string between the two; `true` and `false` give the
booleans; a token with a point gives the float `std::stof` reads, if it reads one; any other
token that denotes a decimal integer in the range of `int` gives that integer.  The last value
of the list is coerced by the same function as the values before a comma. -/
theorem insert_value_by_shape (E : Env) (token : Str) (hne : token ≠ [])
    (hws : ∀ c ∈ token, isspace c = false) (hlen : token.length < 2 ^ 64) :
    ((token.head? = some '"' ∧ token.getLast? = some '"') →
        insertValue E token = .ok (.string ((token.drop 1).dropLast))) ∧
      (¬ (token.head? = some '"' ∧ token.getLast? = some '"') →
        (token = "true".toList → insertValue E token = .ok (.bool true)) ∧
        (token = "false".toList → insertValue E token = .ok (.bool false)) ∧
        (token ≠ "true".toList → token ≠ "false".toList →
          ('.' ∈ token →
            insertValue E token = (E.stof token).map Value.float) ∧
          ('.' ∉ token →
            (∀ v, insertValue E token = .ok v → v.tag = .INT) ∧
            ∀ n, decimalValue token = some n → -2147483648 ≤ n → n ≤ 2147483647 →
              insertValue E token = .ok (.int n)))) ∧
      (∀ values current inQuotes, current ≠ [] →
        insertSplit E values current inQuotes [] =
          (insertValue E current).map (fun v => values ++ [v])) ∧
      (∀ values current raw,
        insertSplit E values current false (',' :: raw) =
          (insertValue E current).bind (fun v => insertSplit E (values ++ [v]) [] false raw)) := by
  have hrs := removeSpaces_eq_self token hws
  have base : insertValue E token =
      if quoted token = true then .ok (.string (unquote token))
      else if token = "true".toList ∨ token = "false".toList then
        .ok (.bool (decide (token = "true".toList)))
      else if (findChar '.' token).isSome = true then (E.stof token).map Value.float
      else (stoi token).map Value.int := by
    unfold insertValue
    simp only []
    rw [hrs]
    cases E.stof token <;> cases stoi token <;> rfl
  refine ⟨?_, ?_, ?_, ?_⟩
  · intro hq
    have hqt : quoted token = true := by simp [quoted, hq.1, hq.2]
    rw [base, if_pos hqt, unquote_eq token hne hlen]
  · intro hq
    have hnq : ¬ quoted token = true := by
      simp only [quoted, Bool.and_eq_true, decide_eq_true_eq]
      exact hq
    rw [base, if_neg hnq]
    refine ⟨?_, ?_, ?_⟩
    · intro ht
      rw [if_pos (Or.inl ht), decide_eq_true ht]
    · intro hf
      have hne1 : token ≠ "true".toList := by rw [hf]; decide
      rw [if_pos (Or.inr hf), decide_eq_false hne1]
    · intro ht hf
      have hno : ¬ (token = "true".toList ∨ token = "false".toList) := fun h => h.elim ht hf
      rw [if_neg hno]
      refine ⟨?_, ?_⟩
      · intro hdot
        rw [if_pos ((findChar_isSome_iff _ _).2 hdot)]
      · intro hdot
        have hnone : ¬ (findChar '.' token).isSome = true :=
          fun h => hdot ((findChar_isSome_iff _ _).1 h)
        rw [if_neg hnone]
        refine ⟨?_, ?_⟩
        · intro v hv
          cases hs : stoi token with
          | error e =>
            rw [hs] at hv
            cases hv
          | ok i =>
            rw [hs] at hv
            cases hv
            rfl
        · intro n hd hlo hhi
          rw [stoi_of_decimal token n hws hd hlo hhi]
          rfl
  · intro values current inQuotes hc
    simp only [insertSplit, ne_eq, hc, not_false_eq_true, if_true]
    cases insertValue E current <;> rfl
  · intro values current raw
    simp only [insertSplit, show (',' : Char) ≠ '"' by decide, if_false, true_and, if_true]
    cases insertValue E current <;> rfl

/-! ## CREATE_TABLE -/

theorem typeOfWord_eq (w : Str) : typeOfWord w = parseType (upperStr w) := by
  simp only [typeOfWord, parseType, or_comm]

theorem createColumns_fst (pieces : List Str) :
    (createColumns pieces).1 = pieces.filterMap columnOfDef := by
  induction pieces with
  | nil => rfl
  | cons d ds ih =>
    simp only [createColumns, List.filterMap_cons, columnOfDef, typeOfWord_eq]
    cases parseType (upperStr (word d 1)) with
    | none => simpa using ih
    | some ty => simpa using ih

theorem createColumns_getlines (defs : Str) :
    (createColumns (getlines ',' defs)).1 = (commaPieces defs).filterMap columnOfDef := by
  rw [createColumns_fst, getlines_comma, filterMap_dropEmptyLast _ (by decide)]

theorem execCreateTable_eq (input : Str) (db : Database) (o c : Nat)
    (ho : findChar '(' input = some o) (hc : findChar ')' input = some c)
    (hoc : o < c) (hlen : input.length < 2 ^ 64)
    (hfresh : ∀ t ∈ db.tables, t.name ≠ word (input.take o) 1) :
    (execCreateTable input db).exn = none ∧
      (execCreateTable input db).db.tables =
        db.tables ++ [{ name := word (input.take o) 1
                        columns := (commaPieces ((input.drop (o + 1)).take (c - o - 1))).filterMap
                          columnOfDef
                        rows := [] }] := by
  have hsub := substr_between input o c hoc (findChar_lt _ _ _ hc) hlen
  have hnone := (findTable_eq_none_iff _ _).2 hfresh
  simp only [execCreateTable, ho, hc, hsub, Database.createTable, hnone, createColumns_getlines]
  constructor <;> trivial

/-- C19: a CREATE_TABLE line whose first `)` comes after its first `(` and whose table name,
the second word before the `(`, is not yet used, appends a table whose schema is the list,
in textual order, of the comma-separated definitions between the two whose second word,
letter case ignored, is `INT`, `FLOAT`, `STRING`, `BOOL` or `BOOLEAN`, each giving the column
named by its first word; the other definitions give no column.  A line without `(` or
without `)` gets a diagnostic and leaves the database as it was. -/
theorem create_table_schema (E : Env) (F : Files) (input : Str) (db : Database)
    (hcmd : identifyCommand input = .CREATE_TABLE) (hlen : input.length < 2 ^ 64) :
    (∀ o c, findChar '(' input = some o → findChar ')' input = some c → o < c →
        (∀ t ∈ db.tables, t.name ≠ word (input.take o) 1) →
        (executeCommand E F input db).exn = none ∧
          (executeCommand E F input db).db.tables =
            db.tables ++ [{ name := word (input.take o) 1
                            columns :=
                              (commaPieces ((input.drop (o + 1)).take (c - o - 1))).filterMap
                                columnOfDef
                            rows := [] }]) ∧
      ((findChar '(' input = none ∨ findChar ')' input = none) →
        (executeCommand E F input db).db = db ∧ (executeCommand E F input db).exn = none ∧
          ((executeCommand E F input db).out = [.errMissingParen] ∨
            (executeCommand E F input db).out = [.errMissingColumnDefs])) ∧
      (∀ d, columnOfDef d =
        if upperStr (word d 1) = "INT".toList then some { name := word d 0, type := .INT }
        else if upperStr (word d 1) = "FLOAT".toList then some { name := word d 0, type := .FLOAT }
        else if upperStr (word d 1) = "STRING".toList then
          some { name := word d 0, type := .STRING }
        else if upperStr (word d 1) = "BOOL".toList ∨ upperStr (word d 1) = "BOOLEAN".toList then
          some { name := word d 0, type := .BOOL }
        else none) := by
  refine ⟨?_, ?_, ?_⟩
  · intro o c ho hc hoc hfresh
    simp only [executeCommand, hcmd]
    exact execCreateTable_eq input db o c ho hc hoc hlen hfresh
  · intro h
    simp only [executeCommand, hcmd, execCreateTable]
    cases ho : findChar '(' input with
    | none => simp
    | some o =>
      have hc : findChar ')' input = none := by
        rcases h with h | h
        · rw [ho] at h
          cases h
        · exact h
      simp [hc]
  · intro d
    simp only [columnOfDef, typeOfWord]
    split_ifs <;> rfl

/-- Witness of C19: `CREATE_TABLE T(ID int, Name String, X blob)` on the empty database
creates `T` with the columns `ID INT` and `Name STRING`. -/
theorem create_table_schema_witness :
    (executeCommand sampleEnv noFiles "CREATE_TABLE T(ID int, Name String, X blob)".toList
        { tables := [] }).db.tables =
      [{ name := "T".toList, columns := idNameColumns, rows := [] }] :=
  (((create_table_schema sampleEnv noFiles "CREATE_TABLE T(ID int, Name String, X blob)".toList
      { tables := [] } (by decide) (by decide)).1 14 42 (by decide) (by decide) (by decide)
      (by decide)).2).trans (by decide)

/-- C20, as stated, fails: `CREATE_TABLE T(a INT, a INT)` creates the table `T` with two
columns, both named `a`. -/
theorem create_table_repeats_column_name :
    executeCommand sampleEnv noFiles "CREATE_TABLE T(a INT, a INT)".toList { tables := [] } =
        { db := tableT [{ name := "a".toList, type := .INT }, { name := "a".toList, type := .INT }] []
          out := [.tableCreated "T".toList 2, .columnListed "a".toList .INT,
                  .columnListed "a".toList .INT] } ∧
      ¬ (List.map (·.name)
        ([{ name := "a".toList, type := .INT }, { name := "a".toList, type := .INT }] :
          List Column)).Nodup := by
  decide

/-- C20, amended: CREATE_TABLE does not check the column names.  The column names of the
created table are the names of the recognised column definitions of the line, in textual
order and with their repetitions, so they are pairwise distinct exactly when the names in
those definitions are. -/
theorem create_table_column_names (E : Env) (F : Files) (input : Str) (db : Database)
    (o c : Nat) (hcmd : identifyCommand input = .CREATE_TABLE)
    (ho : findChar '(' input = some o) (hc : findChar ')' input = some c)
    (hoc : o < c) (hlen : input.length < 2 ^ 64)
    (hfresh : ∀ t ∈ db.tables, t.name ≠ word (input.take o) 1) :
    ∃ t, (executeCommand E F input db).db.tables = db.tables ++ [t] ∧
      t.name = word (input.take o) 1 ∧
      t.columns.map (·.name) =
        ((commaPieces ((input.drop (o + 1)).take (c - o - 1))).filterMap columnOfDef).map
          (·.name) ∧
      ((t.columns.map (·.name)).Nodup ↔
        (((commaPieces ((input.drop (o + 1)).take (c - o - 1))).filterMap columnOfDef).map
          (·.name)).Nodup) := by
  have h := (execCreateTable_eq input db o c ho hc hoc hlen hfresh).2
  exact ⟨_, by simpa only [executeCommand, hcmd] using h, rfl, rfl, Iff.rfl⟩

/-- Witness of the amended C20: `CREATE_TABLE T(a INT, b INT)` on the empty database. -/
theorem create_table_column_names_witness :
    ∃ t, (executeCommand sampleEnv noFiles "CREATE_TABLE T(a INT, b INT)".toList
        { tables := [] }).db.tables = [] ++ [t] ∧ t.name = "T".toList ∧
      (t.columns.map (·.name)).Nodup := by
  obtain ⟨t, h1, h2, h3, h4⟩ := create_table_column_names sampleEnv noFiles
    "CREATE_TABLE T(a INT, b INT)".toList { tables := [] } 14 27 (by decide) (by decide)
    (by decide) (by decide) (by decide) (by decide)
  exact ⟨t, h1, h2, h4.2 (by decide)⟩

/-! ## Defects found by the claims on the database, the tags and the save file -/

/-- C13 (defect in the code): LOAD_FROM of a file with two blocks for a table named `T`
loads two tables of that name without any error.  `DROP_TABLE T` then succeeds and removes
the first; `getTable` still finds a table `T`, and `SELECT * FROM T` prints its header and
its row instead of reporting that the table is not found. -/
theorem drop_leaves_table_of_same_name (E : Env) (F : Files) :
    Reachable E { tables := [sampleTable idColumns [], sampleTable idColumns [[.int 7]]] } ∧
      executeCommand E F "DROP_TABLE T".toList
          { tables := [sampleTable idColumns [], sampleTable idColumns [[.int 7]]] } =
        { db := tableT idColumns [[.int 7]], out := [.tableDeleted "T".toList] } ∧
      (tableT idColumns [[.int 7]]).getTable "T".toList =
        some (0, sampleTable idColumns [[.int 7]]) ∧
      executeCommand E F "SELECT * FROM T".toList (tableT idColumns [[.int 7]]) =
        { db := tableT idColumns [[.int 7]]
          out := [.header ["ID".toList], .row [.int 7]] } :=
  ⟨Reachable.of_step _ (oneFile twoBlocksFile) "LOAD_FROM \"f\"".toList Reachable.init rfl rfl,
    rfl, rfl, rfl⟩

/-- C14 (defect in the code): INSERT takes the tag of a value from the shape of its
literal and `addRow` checks no type: `INSERT INTO T VALUES (1, 5)` into
`T(ID INT, Name STRING)` succeeds and leaves an `int` cell in the `STRING` column. -/
theorem insert_breaks_cell_tags (E : Env) (F : Files) :
    executeCommand E F "INSERT INTO T VALUES (1, 5)".toList (tableT idNameColumns []) =
        { db := tableT idNameColumns [[.int 1, .int 5]], out := [.rowInserted "T".toList] } ∧
      ∃ db, Reachable E db ∧ ∃ t ∈ db.tables, ¬ t.tagsFit := by
  refine ⟨rfl, tableT idNameColumns [[.int 1, .int 5]], ?_, _, List.mem_singleton.2 rfl, ?_⟩
  · exact Reachable.of_step _ noFiles "INSERT INTO T VALUES (1, 5)".toList
      (Reachable.of_step (tableT idNameColumns []) noFiles
        "CREATE_TABLE T(ID INT, Name STRING)".toList Reachable.init rfl rfl) rfl rfl
  · intro h
    have h1 := h { values := [.int 1, .int 5] } (List.mem_singleton.2 rfl)
    revert h1
    decide

/-- C15 (defect in the code): for the row `(1, "Ada", true)` of
`T(ID INT, Name STRING, Active BOOL)`, reached by a CREATE_TABLE and an INSERT, `saveToFile`
writes `ROW: 1, Ada, 1`: the string without quotes and the boolean as `1`. -/
theorem save_writes_strings_bare_and_bools_as_digits (E : Env) :
    Reachable E (tableT idNameActiveColumns [[.int 1, .string "Ada".toList, .bool true]]) ∧
      (tableT idNameActiveColumns [[.int 1, .string "Ada".toList, .bool true]]).saveText E =
        "TABLE T\nCOLUMNS: ID INT, Name STRING, Active BOOLEAN\nROW: 1, Ada, 1\nEND_TABLE\n".toList :=
  ⟨Reachable.of_step _ noFiles "INSERT INTO T VALUES (1, \"Ada\", true)".toList
      (Reachable.of_step (tableT idNameActiveColumns []) noFiles
        "CREATE_TABLE T(ID INT, Name STRING, Active BOOL)".toList Reachable.init rfl rfl) rfl rfl,
    rfl⟩

/-! ## SELECT -/

/-- C24: the line `Alter Table T ADD c INT` is classified as ALTER_TABLE, and executing it
on a database holding `T(ID INT)` with the row `(1)` changes nothing and prints nothing,
while `ALTER TABLE T ADD c INT` on the same database appends the column `c` and gives the
row the cell `0`. -/
theorem alter_table_mixed_case_keywords_ignored (E : Env) (F : Files) :
    identifyCommand "Alter Table T ADD c INT".toList = .ALTER_TABLE ∧
      executeCommand E F "Alter Table T ADD c INT".toList (tableT idColumns [[.int 1]]) =
        { db := tableT idColumns [[.int 1]], out := [] } ∧
      executeCommand E F "ALTER TABLE T ADD c INT".toList (tableT idColumns [[.int 1]]) =
        { db := tableT [{ name := "ID".toList, type := .INT }, { name := "c".toList, type := .INT }]
            [[.int 1, .int 0]]
          out := [.columnAdded "c".toList "T".toList] } :=
  ⟨by decide, rfl, rfl⟩

/-! ## The SET literal of UPDATE for an `INT` column -/

theorem stoi_eq_integerPrefix (token : Str) :
    (integerPrefix (token.dropWhile isspace) = none → stoi token = .error .invalid_argument) ∧
      ∀ n, integerPrefix (token.dropWhile isspace) = some n →
        stoi token = if n < -2147483648 ∨ 2147483647 < n then .error .out_of_range else .ok n := by
  simp only [integerPrefix, stoi]
  generalize (if (token.dropWhile isspace).head? = some '-' ∨
    (token.dropWhile isspace).head? = some '+' then (token.dropWhile isspace).drop 1
    else token.dropWhile isspace) = body
  by_cases hb : List.takeWhile isDigit body = []
  · simp only [hb, if_true, true_implies]
    exact ⟨trivial, fun n hn => by cases hn⟩
  · simp only [hb, if_false, Option.some.injEq]
    constructor
    · intro h
      cases h
    · rintro n rfl
      rfl

theorem findLastColumn_some (n : Str) (cols : List Column) (k : Nat)
    (h : findLastColumn n cols = some k) : ∃ c, cols[k]? = some c ∧ c.name = n := by
  induction cols generalizing k with
  | nil => cases h
  | cons c cs ih =>
    simp only [findLastColumn] at h
    cases hr : findLastColumn n cs with
    | some i =>
      simp only [hr, Option.some.injEq] at h
      subst h
      obtain ⟨d, hd, hdn⟩ := ih i hr
      exact ⟨d, by simpa using hd, hdn⟩
    | none =>
      simp only [hr] at h
      split at h
      · rename_i hc
        simp only [Option.some.injEq] at h
        subst h
        exact ⟨c, by simp, hc⟩
      · cases h

theorem parseUpdate_newValueStr (input : Str) (s : UpdateStmt)
    (h : parseUpdate input = some (.ok s)) : ∀ c ∈ s.newValueStr, isspace c = false := by
  have key : ∀ t : Str, ∀ c ∈ removeSpaces t, isspace c = false := by
    intro t c hc
    simp only [removeSpaces, List.mem_filter, Bool.not_eq_true'] at hc
    exact hc.2
  simp only [parseUpdate] at h
  split at h
  · split at h
    · simp only [Option.some.injEq, Except.ok.injEq] at h
      subst h
      exact key _
    · cases h
    · cases h
    · cases h
  · cases h

theorem updateNewValue_tag (E : Env) (ty : DataType) (lit : Str) (v : Value)
    (h : updateNewValue E ty lit = some v) : v.tag = ty := by
  cases ty with
  | INT =>
    simp only [updateNewValue] at h
    split at h
    · cases h
      rfl
    · cases h
  | FLOAT =>
    simp only [updateNewValue] at h
    split at h
    · cases h
      rfl
    · cases h
  | STRING =>
    simp only [updateNewValue, Option.some.injEq] at h
    subst h
    rfl
  | BOOL =>
    simp only [updateNewValue, Option.some.injEq] at h
    subst h
    rfl

/-- The SET conversion of UPDATE for an `INT` column, as `std::stoi` performs it: if the
literal does not begin with an integer (an optional sign and digits), or that integer does not
fit an `int`, the command reports a type mismatch and changes nothing; otherwise that integer
is the value written.  The value coerced from the SET literal has the tag of the declared type
of the target column. -/
theorem update_int_literal_leading_integer (E : Env) (F : Files) (input : Str) (db : Database)
    (s : UpdateStmt) (i : Nat) (table : Table) (a c : Nat)
    (hcmd : identifyCommand input = .UPDATE)
    (hparse : parseUpdate input = some (.ok s))
    (htable : db.getTable s.tableName = some (i, table))
    (ha : findLastColumn s.targetCol table.columns = some a)
    (hc : findLastColumn s.condCol table.columns = some c)
    (hint : ∀ col ∈ table.columns, col.name = s.targetCol → col.type = .INT) :
    ((integerPrefix s.newValueStr = none ∨
        ∃ n, integerPrefix s.newValueStr = some n ∧ (n < -2147483648 ∨ 2147483647 < n)) →
      executeCommand E F input db = { db := db, out := [.errTypeMismatch] }) ∧
    (∀ n, integerPrefix s.newValueStr = some n → -2147483648 ≤ n → n ≤ 2147483647 →
      executeCommand E F input db =
        { db := db.setTable i
            { table with rows := (updateRows E c a (.int n) s.condValueStr table.rows).1 }
          out := if (updateRows E c a (.int n) s.condValueStr table.rows).2.2 = none
            then [.rowsUpdated (updateRows E c a (.int n) s.condValueStr table.rows).2.1 s.tableName]
            else []
          exn := (updateRows E c a (.int n) s.condValueStr table.rows).2.2 }) ∧
    (∀ (ty : DataType) (lit : Str) (v : Value), updateNewValue E ty lit = some v → v.tag = ty) := by
  obtain ⟨col, hcol, hname⟩ := findLastColumn_some _ _ _ ha
  have hty : col.type = .INT := hint col (List.mem_iff_getElem?.2 ⟨a, hcol⟩) hname
  have hdw : s.newValueStr.dropWhile isspace = s.newValueStr := by
    have hws := parseUpdate_newValueStr input s hparse
    cases hs : s.newValueStr with
    | nil => rfl
    | cons ch rest =>
      rw [hs] at hws
      simp [List.dropWhile, hws ch (List.mem_cons_self _ _)]
  obtain ⟨hnone, hsome⟩ := stoi_eq_integerPrefix s.newValueStr
  rw [hdw] at hnone hsome
  refine ⟨?_, ?_, updateNewValue_tag E⟩
  · intro h
    have hst : ∃ e, stoi s.newValueStr = .error e := by
      rcases h with h | ⟨n, hn, hr⟩
      · exact ⟨_, hnone h⟩
      · exact ⟨_, (hsome n hn).trans (if_pos hr)⟩
    obtain ⟨e, he⟩ := hst
    simp only [executeCommand, hcmd, execUpdate, hparse, runUpdate, htable, ha, hc, hcol, hty,
      updateNewValue, he]
  · intro n hn hlo hhi
    have hst : stoi s.newValueStr = .ok n := (hsome n hn).trans (if_neg (by omega))
    simp only [executeCommand, hcmd, execUpdate, hparse, runUpdate, htable, ha, hc, hcol, hty,
      updateNewValue, hst]
    generalize updateRows E c a (.int n) s.condValueStr table.rows = r
    obtain ⟨rows1, cnt, ex⟩ := r
    cases ex <;> rfl

/-! ## The `ROW:` lines of a save file -/

theorem startsWith_row (line : Str) (h : startsWith line "ROW:".toList = true) :
    startsWith line "TABLE ".toList = false ∧ startsWith line "COLUMNS:".toList = false := by
  cases line with
  | nil => cases h
  | cons c rest =>
    have hc : c = 'R' := by
      have h1 : startsWith (c :: rest) ('R' :: "OW:".toList) = true := h
      simp only [startsWith, Bool.and_eq_true, decide_eq_true_eq] at h1
      exact h1.1
    subst hc
    exact ⟨rfl, rfl⟩

theorem loadRow_ok_iff (E : Env) (cur : Table) (vals : List Value) (pieces : List Str) :
    (∃ vs, loadRow E cur vals pieces = .ok vs) ↔
      vals.length + pieces.length = cur.columns.length ∧
        ∀ (j : Nat) (column : Column) (piece : Str), cur.columns[vals.length + j]? = some column →
          pieces[j]? = some piece → ∃ v, loadValue E column (trimBlanks piece) = .ok v := by
  induction pieces generalizing vals with
  | nil =>
    simp only [loadRow, List.length_nil, Nat.add_zero, List.getElem?_nil, false_implies,
      implies_true, and_true, ne_eq, ite_not]
    by_cases h : vals.length = cur.columns.length
    · simp [h]
    · simp [h]
  | cons token rest ih =>
    simp only [loadRow, List.length_cons]
    cases hcol : cur.columns[vals.length]? with
    | none =>
      have hlen : cur.columns.length ≤ vals.length := List.getElem?_eq_none_iff.1 hcol
      simp only [false_iff, not_and, exists_false]
      constructor
      · rintro ⟨_, h⟩
        cases h
      · rintro ⟨h, _⟩
        omega
    | some column =>
      have hlen : vals.length < cur.columns.length := (List.getElem?_eq_some_iff.1 hcol).1
      simp only []
      cases hv : loadValue E column (trimBlanks token) with
      | error e =>
        simp only []
        constructor
        · rintro ⟨_, h⟩
          cases h
        · rintro ⟨_, h⟩
          obtain ⟨v, hv1⟩ := h 0 column token (by simpa using hcol) (by simp)
          rw [hv] at hv1
          cases hv1
      | ok v =>
        simp only []
        rw [ih (vals ++ [v])]
        simp only [List.length_append, List.length_singleton]
        constructor
        · rintro ⟨h1, h2⟩
          refine ⟨by omega, ?_⟩
          intro j col piece hc hp
          cases j with
          | zero =>
            simp only [Nat.add_zero, hcol, Option.some.injEq] at hc
            simp only [List.getElem?_cons_zero, Option.some.injEq] at hp
            subst hc hp
            exact ⟨v, hv⟩
          | succ j =>
            exact h2 j col piece (by rw [← hc]; congr 1; omega) (by simpa using hp)
        · rintro ⟨h1, h2⟩
          refine ⟨by omega, ?_⟩
          intro j col piece hc hp
          exact h2 (j + 1) col piece (by rw [← hc]; congr 1; omega) (by simpa using hp)

theorem loadRow_length (E : Env) (cur : Table) (vals : List Value) (pieces : List Str)
    (vs : List Value) (h : loadRow E cur vals pieces = .ok vs) :
    vs.length = cur.columns.length := by
  induction pieces generalizing vals with
  | nil =>
    simp only [loadRow] at h
    split at h
    · cases h
    · rename_i hl
      cases h
      simpa using hl
  | cons token rest ih =>
    simp only [loadRow] at h
    split at h
    · cases h
    · split at h
      · cases h
      · exact ih _ h

theorem loadRow_ok_iff_rowConverts (E : Env) (cur : Table) (pieces : List Str) :
    (∃ vs, loadRow E cur [] pieces = .ok vs) ↔ rowConverts E cur.columns pieces := by
  rw [loadRow_ok_iff]
  simp only [List.length_nil, Nat.zero_add, rowConverts]

/-- The line loop of `loadFromFile` at a `ROW:` line: the row is committed exactly when
`std::getline` yields as many pieces as the current table has columns and each piece, trimmed,
is converted for its column; otherwise the load stops there with an error.  A piece is
converted for an `INT` column when `std::stoi` finds, after leading white space, an integer that
fits an `int` at its beginning, for a `FLOAT` column when `std::stof` reads it, for a `BOOL`
column when it is `true`, `1`, `false` or `0`, and always for a `STRING` column. -/
theorem load_row_line (E : Env) (tables : List Table) (cur : Table) (line : Str)
    (rest : List Str) (hrow : startsWith line "ROW:".toList = true) :
    (¬ rowConverts E cur.columns (getlines ',' (line.drop 4)) →
      ∃ e, loadLines E tables cur (line :: rest) = (tables, some e)) ∧
    (rowConverts E cur.columns (getlines ',' (line.drop 4)) →
      ∃ vs, vs.length = cur.columns.length ∧
        loadLines E tables cur (line :: rest) =
          loadLines E tables { cur with rows := cur.rows ++ [{ values := vs }] } rest) ∧
    (∀ (column : Column) (token : Str),
      (column.type = .INT →
        ((∃ v, loadValue E column token = .ok v) ↔
          ∃ n, integerPrefix (token.dropWhile isspace) = some n ∧
            -2147483648 ≤ n ∧ n ≤ 2147483647)) ∧
      (column.type = .FLOAT →
        ((∃ v, loadValue E column token = .ok v) ↔ ∃ f, E.stof token = .ok f)) ∧
      (column.type = .STRING → ∃ v, loadValue E column token = .ok v) ∧
      (column.type = .BOOL →
        ((∃ v, loadValue E column token = .ok v) ↔
          (token = "true".toList ∨ token = "1".toList ∨ token = "false".toList ∨
            token = "0".toList)))) := by
  obtain ⟨ht, hc⟩ := startsWith_row line hrow
  have herr : ∀ e, loadRow E cur [] (getlines ',' (line.drop 4)) = .error e →
      loadLines E tables cur (line :: rest) = (tables, some e) := by
    intro e he
    simp only [loadLines, ht, hc, hrow, if_true, Bool.false_eq_true, if_false, he]
  have hok : ∀ vs, loadRow E cur [] (getlines ',' (line.drop 4)) = .ok vs →
      loadLines E tables cur (line :: rest) =
        loadLines E tables { cur with rows := cur.rows ++ [{ values := vs }] } rest := by
    intro vs he
    simp only [loadLines, ht, hc, hrow, if_true, Bool.false_eq_true, if_false, he]
  refine ⟨?_, ?_, ?_⟩
  · intro hno
    rw [← loadRow_ok_iff_rowConverts] at hno
    cases hr : loadRow E cur [] (getlines ',' (line.drop 4)) with
    | error e => exact ⟨e, herr e hr⟩
    | ok vs => exact absurd ⟨vs, hr⟩ hno
  · intro hyes
    rw [← loadRow_ok_iff_rowConverts] at hyes
    obtain ⟨vs, hvs⟩ := hyes
    exact ⟨vs, loadRow_length E cur [] _ vs hvs, hok vs hvs⟩
  · intro column token
    obtain ⟨hnone, hsome⟩ := stoi_eq_integerPrefix token
    refine ⟨?_, ?_, ?_, ?_⟩
    · intro hty
      simp only [loadValue, hty]
      cases hp : integerPrefix (token.dropWhile isspace) with
      | none =>
        rw [hnone hp]
        simp
      | some n =>
        rw [hsome n hp]
        by_cases hr : n < -2147483648 ∨ 2147483647 < n
        · rw [if_pos hr]
          constructor
          · rintro ⟨_, h⟩
            cases h
          · rintro ⟨m, hm, h1, h2⟩
            cases hm
            omega
        · rw [if_neg hr]
          exact ⟨fun _ => ⟨n, rfl, by omega, by omega⟩, fun _ => ⟨_, rfl⟩⟩
    · intro hty
      simp only [loadValue, hty]
      cases E.stof token with
      | error e => simp
      | ok f => simp
    · intro hty
      simp only [loadValue, hty]
      exact ⟨_, rfl⟩
    · intro hty
      simp only [loadValue, hty]
      by_cases h1 : token = "true".toList ∨ token = "1".toList
      · rw [if_pos h1]
        simp only [Except.ok.injEq, exists_eq', true_iff]
        tauto
      · rw [if_neg h1]
        by_cases h2 : token = "false".toList ∨ token = "0".toList
        · rw [if_pos h2]
          simp only [Except.ok.injEq, exists_eq', true_iff]
          tauto
        · rw [if_neg h2]
          constructor
          · rintro ⟨_, h⟩
            cases h
          · intro h
            tauto

/-! ## Line terminators of a save file -/

theorem getlinesAux_line (delim : Char) (l cur : Str) (fresh : Bool) (rest : Str)
    (hl : delim ∉ l) :
    getlinesAux delim cur fresh (l ++ delim :: rest) =
      (cur.reverse ++ l) :: getlinesAux delim [] true rest := by
  induction l generalizing cur fresh with
  | nil => simp [getlinesAux]
  | cons c l ih =>
    have hc : c ≠ delim := fun h => hl (h ▸ List.mem_cons_self _ _)
    have hl1 : delim ∉ l := fun h => hl (List.mem_cons_of_mem _ h)
    simp [getlinesAux, hc, ih (c :: cur) false hl1]

theorem getlines_joinLines (delim : Char) (pre : Str) (lines : List Str)
    (hpre : delim ∉ pre) (hlines : ∀ l ∈ lines, delim ∉ l) :
    getlines delim (joinLines (pre ++ [delim]) lines) = lines.map (· ++ pre) := by
  induction lines with
  | nil => rfl
  | cons l ls ih =>
    have hl : delim ∉ l ++ pre := by
      intro h
      rcases List.mem_append.1 h with h | h
      · exact hlines l (List.mem_cons_self _ _) h
      · exact hpre h
    have h := getlinesAux_line delim (l ++ pre) [] true (joinLines (pre ++ [delim]) ls) hl
    have hj : joinLines (pre ++ [delim]) (l :: ls) =
        (l ++ pre) ++ delim :: joinLines (pre ++ [delim]) ls := by
      simp only [joinLines, List.map_cons, List.flatten_cons, List.append_assoc,
        List.singleton_append]
    have ih1 := ih (fun x hx => hlines x (List.mem_cons_of_mem _ hx))
    simp only [getlines] at ih1 ⊢
    rw [hj, h, ih1]
    rfl

theorem loadLines_no_end (E : Env) (tables : List Table) (cur : Table) (ls : List Str)
    (h : ∀ l ∈ ls, l ≠ "END_TABLE".toList) : (loadLines E tables cur ls).1 = tables := by
  induction ls generalizing cur with
  | nil => rfl
  | cons line rest ih =>
    have hrest : ∀ l ∈ rest, l ≠ "END_TABLE".toList := fun l hl => h l (List.mem_cons_of_mem _ hl)
    have hline : line ≠ "END_TABLE".toList := h line (List.mem_cons_self _ _)
    simp only [loadLines]
    split
    · exact ih _ hrest
    · split
      · split
        · rfl
        · exact ih _ hrest
      · split
        · split
          · rfl
          · exact ih _ hrest
        · exact ih _ hrest

/-- C26, as stated, fails: the save file of `T(ID INT, Name STRING)` with the row `(1, Ada)`
loads to that table when its lines end in `\n`, and to a database without any table when
they end in `\r\n`. -/
theorem load_crlf_loses_table :
    Database.loadFromFile sampleEnv (oneFile (joinLines "\n".toList adaLines)) { tables := [] }
        "f".toList =
      (tableT idNameColumns [[.int 1, .string "Ada".toList]], none) ∧
    Database.loadFromFile sampleEnv (oneFile (joinLines "\r\n".toList adaLines)) { tables := [] }
        "f".toList =
      ({ tables := [] }, none) := by
  decide

/-- C26, amended: the line loop of `loadFromFile` sees the lines of a text whose lines end
in `\n` as they are, and those of a text whose lines end in `\r\n` with the `\r` kept at
their end; no such line is `END_TABLE`, so that loading a file with `\r\n` line terminators
leaves a database without any table, whatever the file holds. -/
theorem load_crlf_commits_nothing (E : Env) (F : Files) (db : Database) (path : Str)
    (lines : List Str) (hlines : ∀ l ∈ lines, '\n' ∉ l)
    (hfile : F.readFile path = some (joinLines "\r\n".toList lines)) :
    getlines '\n' (joinLines "\n".toList lines) = lines ∧
      getlines '\n' (joinLines "\r\n".toList lines) = lines.map (· ++ ['\r']) ∧
      (db.loadFromFile E F path).1 = { tables := [] } := by
  have h1 := getlines_joinLines '\n' [] lines (List.not_mem_nil _) hlines
  have h2 := getlines_joinLines '\n' ['\r'] lines (by decide) hlines
  have e1 : ([] : Str) ++ ['\n'] = "\n".toList := rfl
  have e2 : ['\r'] ++ ['\n'] = "\r\n".toList := rfl
  rw [e1] at h1
  rw [e2] at h2
  refine ⟨by simpa using h1, h2, ?_⟩
  have hno : ∀ l ∈ lines.map (· ++ ['\r']), l ≠ "END_TABLE".toList := by
    intro l hl he
    obtain ⟨x, _, hx⟩ := List.mem_map.1 hl
    have hlast : l.getLast? = some '\r' := by
      rw [← hx]
      simp
    rw [he] at hlast
    revert hlast
    decide
  simp only [Database.loadFromFile, hfile, loadText, h2,
    loadLines_no_end E [] _ _ hno]

/-- Witness of the amended C26: the file of `T(ID INT, Name STRING)` with the row `(1, Ada)`
and `\r\n` line terminators. -/
theorem load_crlf_commits_nothing_witness :
    (Database.loadFromFile sampleEnv (oneFile (joinLines "\r\n".toList adaLines)) { tables := [] }
        "f".toList).1 = { tables := [] } :=
  (load_crlf_commits_nothing sampleEnv (oneFile (joinLines "\r\n".toList adaLines))
    { tables := [] } "f".toList adaLines (by decide) rfl).2.2

/-! ## `addRow` and the uniqueness of the primary key -/

theorem floatEq_comm (a b : Nat) : floatEq a b = floatEq b a := by
  simp only [floatEq]
  cases floatIsNaN a <;> cases floatIsNaN b <;> simp [eq_comm]

theorem Value.eq_comm (a b : Value) : a.eq b = b.eq a := by
  cases a <;> cases b <;> simp only [Value.eq, floatEq_comm, decide_eq_decide] <;>
    first | rfl | exact ⟨Eq.symm, Eq.symm⟩

theorem addRow_ok (t : Table) (values : List Value) (hok : (t.addRow values).2 = none) :
    ∃ k newPK, findColumn t.primaryKeyColumn t.columns = some k ∧ values[k]? = some newPK ∧
      pkClash k newPK t.rows = false ∧
      (t.addRow values).1 = { t with rows := t.rows ++ [{ values := values }] } := by
  have hfst : (t.addRow values).1 = { t with rows := t.rows ++ [{ values := values }] } := by
    rcases addRow_cases t values with ⟨e, he⟩ | h
    · rw [he] at hok
      cases hok
    · rw [h]
  suffices h3 : ∃ k newPK, findColumn t.primaryKeyColumn t.columns = some k ∧
      values[k]? = some newPK ∧ pkClash k newPK t.rows = false by
    obtain ⟨k, newPK, h1, h2, h3⟩ := h3
    exact ⟨k, newPK, h1, h2, h3, hfst⟩
  clear hfst
  unfold Table.addRow at hok
  split at hok
  · cases hok
  · split at hok
    · cases hok
    · rename_i k hk
      split at hok
      · cases hok
      · rename_i newPK hv
        split at hok
        · cases hok
        · rename_i hclash
          exact ⟨k, newPK, hk, hv, by simpa using hclash⟩

/-- C28: if the cells of the primary-key column of a table are pairwise different under
the equality of `Value`, and `addRow` succeeds, the cells of the primary-key column of the
table it leaves are pairwise different again. -/
theorem addRow_preserves_pkUnique (t : Table) (values : List Value)
    (hpk : t.pkUnique) (hok : (t.addRow values).2 = none) :
    (t.addRow values).1.pkUnique := by
  obtain ⟨k0, newPK, hk0, hv, hclash, heq⟩ := addRow_ok t values hok
  rw [heq]
  intro k hk i j ri rj ci cj hi hj hci hcj hcc
  have hkk : k = k0 := by
    have := (findColumn_eq_some_iff t.primaryKeyColumn t.columns k).2 hk
    rw [hk0] at this
    exact (Option.some.inj this).symm
  subst hkk
  have hno : ∀ row ∈ t.rows, ∀ cell, row.values[k]? = some cell → cell.eq newPK = true → False := by
    intro row hrow cell hcell he
    have : pkClash k newPK t.rows = true := (pkClash_iff k newPK t.rows).2 ⟨row, hrow, cell, hcell, he⟩
    rw [hclash] at this
    cases this
  simp only at hi hj
  have hil : i < (t.rows ++ [({ values := values } : Row)]).length := (List.getElem?_eq_some_iff.1 hi).1
  have hjl : j < (t.rows ++ [({ values := values } : Row)]).length := (List.getElem?_eq_some_iff.1 hj).1
  simp only [List.length_append, List.length_singleton] at hil hjl
  by_cases hi1 : i < t.rows.length
  · rw [List.getElem?_append_left hi1] at hi
    by_cases hj1 : j < t.rows.length
    · rw [List.getElem?_append_left hj1] at hj
      exact hpk k hk i j ri rj ci cj hi hj hci hcj hcc
    · have hje : j = t.rows.length := by omega
      subst hje
      rw [List.getElem?_append_right (Nat.le_refl _)] at hj
      simp only [Nat.sub_self, List.getElem?_cons_zero, Option.some.injEq] at hj
      subst hj
      simp only at hcj
      rw [hv] at hcj
      cases hcj
      exact (hno ri (List.mem_iff_getElem?.2 ⟨_, hi⟩) ci hci hcc).elim
  · have hie : i = t.rows.length := by omega
    subst hie
    rw [List.getElem?_append_right (Nat.le_refl _)] at hi
    simp only [Nat.sub_self, List.getElem?_cons_zero, Option.some.injEq] at hi
    subst hi
    simp only at hci
    rw [hv] at hci
    cases hci
    by_cases hj1 : j < t.rows.length
    · rw [List.getElem?_append_left hj1] at hj
      rw [Value.eq_comm] at hcc
      exact (hno rj (List.mem_iff_getElem?.2 ⟨_, hj⟩) cj hcj hcc).elim
    · omega

/-- Witness of C28: the row `(2, Bob)` added to `T(ID INT, Name STRING)` with the row
`(1, Ada)`. -/
theorem addRow_preserves_pkUnique_witness :
    (sampleTable idNameColumns [[.int 1, .string "Ada".toList]]).pkUnique ∧
      ((sampleTable idNameColumns [[.int 1, .string "Ada".toList]]).addRow
        [.int 2, .string "Bob".toList]).2 = none ∧
      ((sampleTable idNameColumns [[.int 1, .string "Ada".toList]]).addRow
        [.int 2, .string "Bob".toList]).1.pkUnique :=
  have h : (sampleTable idNameColumns [[.int 1, .string "Ada".toList]]).pkUnique := by
    intro k _ i j ri rj ci cj hi hj _ _ _
    have hil := (List.getElem?_eq_some_iff.1 hi).1
    have hjl := (List.getElem?_eq_some_iff.1 hj).1
    simp only [sampleTable, List.map_cons, List.map_nil, List.length_singleton] at hil hjl
    omega
  ⟨h, by decide, addRow_preserves_pkUnique _ _ h (by decide)⟩

/-! ## The keywords of an UPDATE line -/

theorem startsWith_append_space (t rest p : Str) (hp : ' ' ∉ p) :
    startsWith (t ++ ' ' :: rest) p = startsWith t p := by
  induction t generalizing p with
  | nil =>
    cases p with
    | nil => rfl
    | cons d p =>
      have hd : ' ' ≠ d := fun h => hp (h ▸ List.mem_cons_self _ _)
      simp [startsWith, hd]
  | cons ch t ih =>
    cases p with
    | nil => rfl
    | cons d p =>
      have hp1 : ' ' ∉ p := fun h => hp (List.mem_cons_of_mem _ h)
      rw [List.cons_append]
      simp only [startsWith, ih p hp1]

theorem findStr_append_space (p t rest : Str) (hp : ' ' ∉ p) (hne : p ≠ [])
    (h : findStr p t = none) :
    findStr p (t ++ ' ' :: rest) = (findStr p rest).map (· + (t.length + 1)) := by
  induction t with
  | nil =>
    have hs : startsWith (' ' :: rest) p = false := by
      have := startsWith_append_space [] rest p hp
      simp only [List.nil_append] at this
      rw [this]
      cases p with
      | nil => exact absurd rfl hne
      | cons d p => rfl
    simp only [List.nil_append, findStr, hs, Bool.false_eq_true, if_false, List.length_nil,
      Nat.zero_add]
  | cons ch t ih =>
    simp only [findStr] at h
    split at h
    · cases h
    · rename_i hs
      have ht : findStr p t = none := by
        cases hf : findStr p t with
        | none => rfl
        | some k => simp [hf] at h
      have hs1 : ¬ startsWith (ch :: (t ++ ' ' :: rest)) p = true := by
        have := startsWith_append_space (ch :: t) rest p hp
        simp only [List.cons_append] at this
        rw [this]
        exact hs
      rw [List.cons_append]
      simp only [findStr, hs1, if_false, ih ht, Option.map_map, List.length_cons]
      congr 1

theorem startsWith_self_append (p rest : Str) : startsWith (p ++ rest) p = true := by
  induction p with
  | nil => cases rest <;> rfl
  | cons d p ih => simp [startsWith, ih]

theorem findStr_self_append (p rest : Str) (hne : p ≠ []) : findStr p (p ++ rest) = some 0 := by
  cases p with
  | nil => exact absurd rfl hne
  | cons d p =>
    have := startsWith_self_append (d :: p) rest
    simp only [List.cons_append] at this
    rw [List.cons_append]
    simp only [findStr, this, if_true]

theorem popSemicolon_append_space (pre v : Str) :
    popSemicolon (pre ++ ' ' :: v) = pre ++ ' ' :: popSemicolon v := by
  cases v with
  | nil =>
    have : (pre ++ [' ']).getLast? = some ' ' := by simp
    simp only [popSemicolon, this]
    rfl
  | cons d v =>
    have h1 : (pre ++ ' ' :: d :: v).getLast? = (d :: v).getLast? := by
      rw [List.getLast?_append]
      simp only [List.getLast?_cons_cons]
      cases h : (d :: v).getLast? with
      | none => simp at h
      | some z => rfl
    have h2 : (pre ++ ' ' :: d :: v).dropLast = pre ++ ' ' :: (d :: v).dropLast := by
      rw [List.dropLast_append_of_ne_nil _ (by simp)]
      rfl
    simp only [popSemicolon, h1, h2]
    split <;> rfl

theorem popSemicolon_no_space (v : Str) (hv : ∀ ch ∈ v, isspace ch = false) :
    ∀ ch ∈ popSemicolon v, isspace ch = false := by
  intro ch hch
  simp only [popSemicolon] at hch
  split at hch
  · exact hv ch (List.dropLast_subset v hch)
  · exact hv ch hch

theorem substr_mid (pre mid post : Str) (pos len : Nat) (hpos : pos = pre.length)
    (hlen : min len (mid.length + post.length) = mid.length) :
    substr (pre ++ (mid ++ post)) pos len = .ok mid := by
  subst hpos
  have h1 : ¬ pre.length > (pre ++ (mid ++ post)).length := by
    simp only [List.length_append]
    omega
  have h2 : (pre ++ (mid ++ post)).length - pre.length = mid.length + post.length := by
    simp only [List.length_append]
    omega
  simp only [substr, h1, if_false, h2, hlen, List.drop_left, List.take_left]

theorem findChar_append (ch : Char) (t rest : Str) (h : ch ∉ t) :
    findChar ch (t ++ rest) = (findChar ch rest).map (· + t.length) := by
  induction t with
  | nil => simp
  | cons d t ih =>
    have hd : d ≠ ch := fun e => h (e ▸ List.mem_cons_self _ _)
    have ht : ch ∉ t := fun e => h (List.mem_cons_of_mem _ e)
    rw [List.cons_append]
    simp only [findChar, hd, if_false, ih ht, Option.map_map, List.length_cons]
    congr 1

theorem getlinesAux_no_delim (delim : Char) (cur s : Str) (h : delim ∉ s) :
    getlinesAux delim cur false s = [cur.reverse ++ s] := by
  induction s generalizing cur with
  | nil => simp [getlinesAux]
  | cons d s ih =>
    have hd : d ≠ delim := fun e => h (e ▸ List.mem_cons_self _ _)
    have hs : delim ∉ s := fun e => h (List.mem_cons_of_mem _ e)
    simp [getlinesAux, hd, ih (d :: cur) hs]

theorem wordsAux_token (t cur rest : Str) (ht : ∀ ch ∈ t, isspace ch = false)
    (hne : cur.reverse ++ t ≠ []) :
    wordsAux cur (t ++ ' ' :: rest) = (cur.reverse ++ t) :: wordsAux [] rest := by
  induction t generalizing cur with
  | nil =>
    have hcur : cur ≠ [] := by
      intro h
      subst h
      exact hne rfl
    have hsp : isspace ' ' = true := by decide
    simp only [List.nil_append, wordsAux, hsp, if_true, hcur, if_false, List.append_nil]
  | cons d t ih =>
    have hd : isspace d = false := ht d (List.mem_cons_self _ _)
    have ht1 : ∀ ch ∈ t, isspace ch = false := fun ch h => ht ch (List.mem_cons_of_mem _ h)
    rw [List.cons_append]
    simp only [wordsAux, hd, Bool.false_eq_true, if_false]
    rw [ih (d :: cur) ht1 (by simp)]
    simp

theorem wordsAux_last (t cur : Str) (ht : ∀ ch ∈ t, isspace ch = false) :
    wordsAux cur t = if cur.reverse ++ t = [] then [] else [cur.reverse ++ t] := by
  induction t generalizing cur with
  | nil =>
    by_cases hcur : cur = []
    · simp [wordsAux, hcur]
    · simp [wordsAux, hcur]
  | cons d t ih =>
    have hd : isspace d = false := ht d (List.mem_cons_self _ _)
    have ht1 : ∀ ch ∈ t, isspace ch = false := fun ch h => ht ch (List.mem_cons_of_mem _ h)
    simp only [wordsAux, hd, Bool.false_eq_true, if_false]
    rw [ih (d :: cur) ht1]
    simp

theorem words_three (c op v : Str) (hc : ∀ ch ∈ c, isspace ch = false) (hcne : c ≠ [])
    (hop : ∀ ch ∈ op, isspace ch = false) (hopne : op ≠ [])
    (hv : ∀ ch ∈ v, isspace ch = false) :
    word (c ++ ' ' :: (op ++ ' ' :: v)) 0 = c ∧ word (c ++ ' ' :: (op ++ ' ' :: v)) 1 = op ∧
      word (c ++ ' ' :: (op ++ ' ' :: v)) 2 = v := by
  have h1 := wordsAux_token c [] (op ++ ' ' :: v) hc (by simpa using hcne)
  have h2 := wordsAux_token op [] v hop (by simpa using hopne)
  have h3 := wordsAux_last v [] hv
  simp only [List.reverse_nil, List.nil_append] at h1 h2 h3
  simp only [word, words, h1, h2, h3]
  refine ⟨rfl, rfl, ?_⟩
  by_cases hvn : v = []
  · simp [hvn]
  · simp [hvn]

theorem removeSpaces_padded (pre t post : Str) (ht : ∀ ch ∈ t, isspace ch = false)
    (hpre : ∀ ch ∈ pre, isspace ch = true) (hpost : ∀ ch ∈ post, isspace ch = true) :
    removeSpaces (pre ++ (t ++ post)) = t := by
  have h1 : pre.filter (fun ch => !isspace ch) = [] := by
    rw [List.filter_eq_nil_iff]
    intro ch hch
    simp [hpre ch hch]
  have h2 : post.filter (fun ch => !isspace ch) = [] := by
    rw [List.filter_eq_nil_iff]
    intro ch hch
    simp [hpost ch hch]
  have h3 := removeSpaces_eq_self t ht
  simp only [removeSpaces] at h3
  simp only [removeSpaces, List.filter_append, h1, h2, h3, List.nil_append, List.append_nil]

theorem updateLine_clean (n a x c v : Str) :
    popSemicolon (updateLine n a x c v) =
      "UPDATE".toList ++ ' ' :: (n ++ ' ' :: ("SET".toList ++ ' ' :: (a ++ ' ' :: (['='] ++ ' ' ::
        (x ++ ' ' :: ("WHERE".toList ++ ' ' ::
          (c ++ ' ' :: (['=', '='] ++ ' ' :: popSemicolon v)))))))) := by
  have h : updateLine n a x c v =
      ("UPDATE".toList ++ ' ' :: (n ++ ' ' :: ("SET".toList ++ ' ' :: (a ++ ' ' :: (['='] ++ ' ' ::
        (x ++ ' ' :: ("WHERE".toList ++ ' ' :: (c ++ ' ' :: ['=', '=']))))))))
        ++ ' ' :: v := by
    simp only [updateLine, List.append_assoc, List.cons_append, List.nil_append]
  rw [h, popSemicolon_append_space]
  simp only [List.append_assoc, List.cons_append, List.nil_append]

theorem parseUpdate_updateLine (n a x c v : Str)
    (hn : ∀ ch ∈ n, isspace ch = false) (ha : ∀ ch ∈ a, isspace ch = false)
    (hx : ∀ ch ∈ x, isspace ch = false) (hc : ∀ ch ∈ c, isspace ch = false)
    (hv : ∀ ch ∈ v, isspace ch = false) (hcne : c ≠ [])
    (hset : findStr "SET".toList n = none)
    (hwn : findStr "WHERE".toList n = none) (hwa : findStr "WHERE".toList a = none)
    (hwx : findStr "WHERE".toList x = none) (heq : '=' ∉ a)
    (hlen : (updateLine n a x c v).length < 2 ^ 64) :
    parseUpdate (updateLine n a x c v) =
      some (.ok { tableName := n, targetCol := a, newValueStr := x, condCol := c
                  op := "==".toList, condValueStr := popSemicolon v }) := by
  have hclean := updateLine_clean n a x c v
  have hLU : "UPDATE".toList.length = 6 := rfl
  have hLS : "SET".toList.length = 3 := rfl
  have hLW : "WHERE".toList.length = 5 := rfl
  have hlen1 : n.length + a.length + x.length + 26 < 2 ^ 64 := by
    have h : (updateLine n a x c v).length =
        n.length + a.length + x.length + c.length + v.length + 26 := by
      simp only [updateLine, List.length_append, List.length_cons, hLU, hLS, hLW]
      omega
    omega
  generalize hw : c ++ ' ' :: (['=', '='] ++ ' ' :: popSemicolon v) = whereClause at hclean
  have hsetPos : findStr "SET".toList (popSemicolon (updateLine n a x c v)) =
      some (n.length + 8) := by
    rw [hclean, findStr_append_space _ _ _ (by decide) (by decide) (by decide),
      findStr_append_space _ _ _ (by decide) (by decide) hset,
      findStr_self_append _ _ (by decide)]
    simp only [Option.map_some', hLU, Option.some.injEq]
    omega
  have hwherePos : findStr "WHERE".toList (popSemicolon (updateLine n a x c v)) =
      some (n.length + a.length + x.length + 16) := by
    rw [hclean, findStr_append_space _ _ _ (by decide) (by decide) (by decide),
      findStr_append_space _ _ _ (by decide) (by decide) hwn,
      findStr_append_space _ _ _ (by decide) (by decide) (by decide),
      findStr_append_space _ _ _ (by decide) (by decide) hwa,
      findStr_append_space _ _ _ (by decide) (by decide) (by decide),
      findStr_append_space _ _ _ (by decide) (by decide) hwx,
      findStr_self_append _ _ (by decide)]
    simp only [Option.map_some', hLU, hLS, List.length_singleton, Option.some.injEq]
    omega
  have hsub1 : substr (popSemicolon (updateLine n a x c v)) 7 (szSub (n.length + 8) 7) =
      .ok (n ++ [' ']) := by
    have e : popSemicolon (updateLine n a x c v) =
        ("UPDATE".toList ++ [' ']) ++ ((n ++ [' ']) ++ ("SET".toList ++ ' ' :: (a ++ ' ' ::
          (['='] ++ ' ' :: (x ++ ' ' :: ("WHERE".toList ++ ' ' :: whereClause)))))) := by
      rw [hclean]
      simp only [List.append_assoc, List.cons_append, List.nil_append]
    rw [e]
    refine substr_mid _ _ _ _ _ rfl ?_
    simp only [szSub, List.length_append, List.length_cons, List.length_nil]
    omega
  have hsub2 : substr (popSemicolon (updateLine n a x c v)) (n.length + 8 + 4)
      (szSub (szSub (n.length + a.length + x.length + 16) (n.length + 8)) 4) =
      .ok ((a ++ [' ']) ++ '=' :: (' ' :: (x ++ [' ']))) := by
    have e : popSemicolon (updateLine n a x c v) =
        ("UPDATE".toList ++ ' ' :: (n ++ ' ' :: ("SET".toList ++ [' ']))) ++
          (((a ++ [' ']) ++ '=' :: (' ' :: (x ++ [' ']))) ++
            ("WHERE".toList ++ ' ' :: whereClause)) := by
      rw [hclean]
      simp only [List.append_assoc, List.cons_append, List.nil_append]
    rw [e]
    refine substr_mid _ _ _ _ _ ?_ ?_
    · simp only [List.length_append, List.length_cons, List.length_nil, hLU, hLS]
      omega
    · simp only [szSub, List.length_append, List.length_cons, List.length_nil]
      omega
  have hsub3 : substrFrom (popSemicolon (updateLine n a x c v))
      (n.length + a.length + x.length + 16 + 6) = .ok whereClause := by
    have e : popSemicolon (updateLine n a x c v) =
        ("UPDATE".toList ++ ' ' :: (n ++ ' ' :: ("SET".toList ++ ' ' :: (a ++ ' ' ::
          (['='] ++ ' ' :: (x ++ ' ' :: ("WHERE".toList ++ [' '])))))))
          ++ (whereClause ++ []) := by
      rw [hclean]
      simp only [List.append_assoc, List.cons_append, List.nil_append, List.append_nil]
    have hwl : whereClause.length < 2 ^ 64 := by
      have h : (popSemicolon (updateLine n a x c v)).length ≤ (updateLine n a x c v).length := by
        simp only [popSemicolon]
        split
        · simp only [List.length_dropLast]
          omega
        · exact Nat.le_refl _
      rw [hclean] at h
      simp only [List.length_append, List.length_cons] at h
      omega
    rw [e]
    refine substr_mid _ _ _ _ _ ?_ ?_
    · simp only [List.length_append, List.length_cons, List.length_nil, hLU, hLS, hLW]
      omega
    · simp only [npos, List.length_nil]
      omega
  have hfc : findChar '=' ((a ++ [' ']) ++ '=' :: (' ' :: (x ++ [' ']))) =
      some (a.length + 1) := by
    have hne : '=' ∉ a ++ [' '] := by
      intro h
      rcases List.mem_append.1 h with h | h
      · exact heq h
      · revert h
        decide
    rw [findChar_append _ _ _ hne]
    simp only [findChar, if_true, Option.map_some', List.length_append, List.length_singleton,
      Nat.zero_add]
  have htake : ((a ++ [' ']) ++ '=' :: (' ' :: (x ++ [' ']))).take (a.length + 1) = a ++ [' '] :=
    List.take_left' (by simp)
  have hdrop : ((a ++ [' ']) ++ '=' :: (' ' :: (x ++ [' ']))).drop (a.length + 1 + 1) =
      ' ' :: (x ++ [' ']) := by
    have e : (a ++ [' ']) ++ '=' :: (' ' :: (x ++ [' '])) =
        (a ++ [' ', '=']) ++ (' ' :: (x ++ [' '])) := by
      simp only [List.append_assoc, List.cons_append, List.nil_append]
    rw [e]
    exact List.drop_left' (by simp)
  have hgl : getlines '\n' (' ' :: (x ++ [' '])) = [' ' :: (x ++ [' '])] := by
    have hnl : '\n' ∉ x ++ [' '] := by
      intro h
      rcases List.mem_append.1 h with h | h
      · have := hx _ h
        revert this
        decide
      · revert h
        decide
    have h := getlinesAux_no_delim '\n' [' '] (x ++ [' ']) hnl
    have hsp : ¬ ' ' = '\n' := by decide
    simp only [getlines, getlinesAux, hsp, if_false, h]
    rfl
  have hsp1 : ∀ ch ∈ [' '], isspace ch = true := by decide
  have hr1 : removeSpaces (n ++ [' ']) = n := by
    have := removeSpaces_padded [] n [' '] hn (by simp) hsp1
    simpa using this
  have hr2 : removeSpaces (a ++ [' ']) = a := by
    have := removeSpaces_padded [] a [' '] ha (by simp) hsp1
    simpa using this
  have hr3 : removeSpaces (' ' :: (x ++ [' '])) = x := removeSpaces_padded [' '] x [' '] hx hsp1 hsp1
  have hwords := words_three c ['=', '='] (popSemicolon v) hc hcne (by decide) (by decide)
    (popSemicolon_no_space v hv)
  rw [hw] at hwords
  simp only [parseUpdate, hsetPos, hwherePos, hsub1, hsub2, hsub3, hfc, htake, hdrop, hgl,
    List.headD_cons, hr1, hr2, hr3, hwords.1, hwords.2.1, hwords.2.2, removeSpaces_eq_self c hc,
    removeSpaces_eq_self _ (popSemicolon_no_space v hv)]
  rfl

theorem identifyCommand_updateLine (n a x c v : Str) :
    identifyCommand (updateLine n a x c v) = .UPDATE := by
  have h : updateLine n a x c v =
      'U' :: 'P' :: 'D' :: 'A' :: 'T' :: 'E' :: ' ' :: (n ++ ' ' :: "SET".toList ++ ' ' :: a ++
        ' ' :: '=' :: ' ' :: x ++ ' ' :: "WHERE".toList ++ ' ' :: c ++ ' ' :: '=' :: '=' :: ' ' :: v) := by
    have hU : "UPDATE".toList = ['U', 'P', 'D', 'A', 'T', 'E'] := rfl
    simp only [updateLine, hU, List.append_assoc, List.cons_append, List.nil_append]
  rw [h]
  rfl

/-- C30, as stated, fails: for the table `ASSETS`, which the database holds, the line
`UPDATE ASSETS SET N = 9 WHERE ID == 1` looks up a table named `AS`, the text before the
letters `SET` of the table name, and reports that it is not found. -/
theorem update_table_name_cut_at_set :
    updateLine "ASSETS".toList "N".toList "9".toList "ID".toList "1".toList =
        "UPDATE ASSETS SET N = 9 WHERE ID == 1".toList ∧
      (assetsDb.getTable "ASSETS".toList).isSome = true ∧
      executeCommand sampleEnv noFiles
          (updateLine "ASSETS".toList "N".toList "9".toList "ID".toList "1".toList) assetsDb =
        { db := assetsDb, out := [.errTableNotFound "AS".toList] } := by
  decide

/-- C30, amended: for whitespace-free tokens `n`, `a`, `x`, `c` and `v`, with `c` not empty,
where `n` contains neither `SET` nor `WHERE`, `a` and `x` do not contain `WHERE` and `a`
contains no `=`, the line `UPDATE n SET a = x WHERE c == v` is taken apart into the table
name `n`, the target column `a`, the literal `x`, the condition column `c`, the operator `==`
and the literal `v` without a final semicolon, and it is executed on these: the table named
`n` is looked up first.  The letters `SET` in `a`, `x`, `c` or `v`, and the letters `WHERE`
in `c` or `v`, do no harm. -/
theorem update_line_pieces (E : Env) (F : Files) (db : Database) (n a x c v : Str)
    (hn : ∀ ch ∈ n, isspace ch = false) (ha : ∀ ch ∈ a, isspace ch = false)
    (hx : ∀ ch ∈ x, isspace ch = false) (hc : ∀ ch ∈ c, isspace ch = false)
    (hv : ∀ ch ∈ v, isspace ch = false) (hcne : c ≠ [])
    (hset : findStr "SET".toList n = none)
    (hwn : findStr "WHERE".toList n = none) (hwa : findStr "WHERE".toList a = none)
    (hwx : findStr "WHERE".toList x = none) (heq : '=' ∉ a)
    (hlen : (updateLine n a x c v).length < 2 ^ 64) :
    parseUpdate (updateLine n a x c v) =
        some (.ok { tableName := n, targetCol := a, newValueStr := x, condCol := c
                    op := "==".toList, condValueStr := popSemicolon v }) ∧
      executeCommand E F (updateLine n a x c v) db =
        runUpdate E { tableName := n, targetCol := a, newValueStr := x, condCol := c
                      op := "==".toList, condValueStr := popSemicolon v } db ∧
      (db.getTable n = none →
        executeCommand E F (updateLine n a x c v) db =
          { db := db, out := [.errTableNotFound n] }) := by
  have hparse := parseUpdate_updateLine n a x c v hn ha hx hc hv hcne hset hwn hwa hwx heq hlen
  have hexec : executeCommand E F (updateLine n a x c v) db =
      runUpdate E { tableName := n, targetCol := a, newValueStr := x, condCol := c
                    op := "==".toList, condValueStr := popSemicolon v } db := by
    simp only [executeCommand, identifyCommand_updateLine, execUpdate, hparse]
  refine ⟨hparse, hexec, ?_⟩
  intro hnone
  rw [hexec]
  simp only [runUpdate, hnone]

/-- Witness of the amended C30: the line `UPDATE T SET SETUP = 9 WHERE WHERESET == 1;`
with the letters `SET` in both column names and `WHERE` in the condition column. -/
theorem update_line_pieces_witness :
    parseUpdate "UPDATE T SET SETUP = 9 WHERE WHERESET == 1;".toList =
      some (.ok { tableName := "T".toList, targetCol := "SETUP".toList, newValueStr := "9".toList
                  condCol := "WHERESET".toList, op := "==".toList, condValueStr := "1".toList }) :=
  (update_line_pieces sampleEnv noFiles { tables := [] } "T".toList "SETUP".toList "9".toList
    "WHERESET".toList "1;".toList (by decide) (by decide) (by decide) (by decide) (by decide)
    (by decide) (by decide) (by decide) (by decide) (by decide) (by decide) (by decide)).1

/-! ## The keywords of a SELECT line -/

/-- C7, as stated, fails: on `T(ID INT, Name STRING)` with the row `(1, Ada Lovelace)` the
literal `"Ada Lovelace"` equals the cell of `Name` under tag-matched equality, yet
`UPDATE T SET ID = 9 WHERE Name == "Ada Lovelace"` changes no row and reports 0: the literal
is read as one whitespace-separated word, `"Ada`. -/
theorem update_quoted_literal_cut_at_blank :
    tagMatchedEq sampleEnv (.string "Ada Lovelace".toList) "\"Ada Lovelace\"".toList = true ∧
      parseUpdate "UPDATE T SET ID = 9 WHERE Name == \"Ada Lovelace\"".toList =
        some (.ok { tableName := "T".toList, targetCol := "ID".toList, newValueStr := "9".toList,
                    condCol := "Name".toList, op := "==".toList,
                    condValueStr := "\"Ada".toList }) ∧
      executeCommand sampleEnv noFiles
          "UPDATE T SET ID = 9 WHERE Name == \"Ada Lovelace\"".toList
          (tableT idNameColumns [[.int 1, .string "Ada Lovelace".toList]]) =
        { db := tableT idNameColumns [[.int 1, .string "Ada Lovelace".toList]]
          out := [.rowsUpdated 0 "T".toList] } := by
  decide

/-- C7, amended: let `n`, `a`, `x`, `c` and `v` be tokens without white space, `c` not empty,
where `n` contains neither `SET` nor `WHERE`, `a` and `x` do not contain `WHERE` and `a`
contains no `=`.  On a table `n` with distinct column names, in which the columns `a` and `c`
exist and whose rows have the arity of the schema, where `x` coerces to the type of `a` and
`v` (without a final semicolon) to the tag of every cell of `c`, the line
`UPDATE n SET a = x WHERE c == v` sets the cell at `a` to the coerced `x` in exactly the rows
whose cell at `c` equals `v` under tag-matched equality, leaves every other cell, row and
table as it was, keeps the rows in order, and reports the number of matching rows. -/
theorem update_line_changes_matching_rows (E : Env) (F : Files) (db : Database)
    (n a x c v : Str) (i : Nat) (table : Table) (ia ic : Nat) (colA colC : Column) (xv : Value)
    (hn : ∀ ch ∈ n, isspace ch = false) (ha : ∀ ch ∈ a, isspace ch = false)
    (hx : ∀ ch ∈ x, isspace ch = false) (hc : ∀ ch ∈ c, isspace ch = false)
    (hv : ∀ ch ∈ v, isspace ch = false) (hcne : c ≠ [])
    (hset : findStr "SET".toList n = none)
    (hwn : findStr "WHERE".toList n = none) (hwa : findStr "WHERE".toList a = none)
    (hwx : findStr "WHERE".toList x = none) (heq : '=' ∉ a)
    (hlen : (updateLine n a x c v).length < 2 ^ 64)
    (htable : db.getTable n = some (i, table))
    (hnodup : (table.columns.map (·.name)).Nodup)
    (hA : table.columns[ia]? = some colA ∧ colA.name = a)
    (hC : table.columns[ic]? = some colC ∧ colC.name = c)
    (harity : ∀ row ∈ table.rows, row.values.length = table.columns.length)
    (hxv : updateNewValue E colA.type x = some xv)
    (hvv : ∀ row ∈ table.rows, ∀ cell, row.values[ic]? = some cell →
      updateNewValue E cell.tag (popSemicolon v) ≠ none) :
    executeCommand E F (updateLine n a x c v) db =
      { db := db.setTable i
          { table with
            rows := table.rows.map (fun row =>
              if rowMatches E ic (popSemicolon v) row then { values := row.values.set ia xv }
              else row) }
        out := [.rowsUpdated (table.rows.countP (rowMatches E ic (popSemicolon v))) n] } :=
  update_changes_exactly_matching_rows E F (updateLine n a x c v) db
    { tableName := n, targetCol := a, newValueStr := x, condCol := c
      op := "==".toList, condValueStr := popSemicolon v }
    i table ia ic colA colC xv (identifyCommand_updateLine n a x c v)
    (parseUpdate_updateLine n a x c v hn ha hx hc hv hcne hset hwn hwa hwx heq hlen)
    rfl htable hnodup hA hC harity hxv hvv

/-- Witness of the amended C7: `UPDATE T SET N = 9 WHERE ID == 1;` on `T(ID INT, N INT)` with
the rows `(1, 5)` and `(2, 5)`. -/
theorem update_line_changes_matching_rows_witness :
    executeCommand sampleEnv noFiles "UPDATE T SET N = 9 WHERE ID == 1;".toList
        (tableT idNColumns [[.int 1, .int 5], [.int 2, .int 5]]) =
      { db := tableT idNColumns [[.int 1, .int 9], [.int 2, .int 5]]
        out := [.rowsUpdated 1 "T".toList] } :=
  (update_line_changes_matching_rows sampleEnv noFiles
    (tableT idNColumns [[.int 1, .int 5], [.int 2, .int 5]])
    "T".toList "N".toList "9".toList "ID".toList "1;".toList
    0 (sampleTable idNColumns [[.int 1, .int 5], [.int 2, .int 5]]) 1 0
    { name := "N".toList, type := .INT } { name := "ID".toList, type := .INT } (.int 9)
    (by decide) (by decide) (by decide) (by decide) (by decide) (by decide) (by decide)
    (by decide) (by decide) (by decide) (by decide) (by decide) (by decide) (by decide)
    (by decide) (by decide) (by decide) (by decide)
    (by
      intro row hrow cell hcell
      simp only [sampleTable, List.map_cons, List.map_nil, List.mem_cons, List.mem_singleton,
        List.not_mem_nil, or_false] at hrow
      rcases hrow with rfl | rfl <;> · cases hcell; decide)).trans (by decide)

/-! ## Defects found by the claims on the conversion of integers -/

/-- C18 (defect in the code): a token that falls under the last rule of INSERT and is no
decimal integer does not give "the decimal integer the token denotes": `12abc` gives the
`int` 12 and `1e5` the `int` 1, and the row is inserted; `abc` and `2147483648` give no value
at all, the exception of `std::stoi` leaves `executeCommand`. -/
theorem insert_int_rule_takes_any_token (E : Env) (F : Files) :
    decimalValue "12abc".toList = none ∧ decimalValue "1e5".toList = none ∧
      insertValue E "12abc".toList = .ok (.int 12) ∧
      insertValue E "1e5".toList = .ok (.int 1) ∧
      insertValue E "abc".toList = .error .invalid_argument ∧
      insertValue E "2147483648".toList = .error .out_of_range ∧
      executeCommand E F "INSERT INTO T VALUES (12abc)".toList (tableT idColumns []) =
        { db := tableT idColumns [[.int 12]], out := [.rowInserted "T".toList] } ∧
      executeCommand E F "INSERT INTO T VALUES (abc)".toList (tableT idColumns []) =
        { db := tableT idColumns [], out := [], exn := some .invalid_argument } :=
  ⟨by decide, by decide, rfl, rfl, rfl, rfl, rfl, rfl⟩

/-- C25 (defect in the code): a save file whose row holds `12abc` for an `INT` column, which
is no number, is loaded without an error and the row is committed with the cell 12; a row
`2,` with two comma-separated values is committed for a table of one column. -/
theorem load_commits_malformed_rows (E : Env) (F : Files) (db : Database) (path : Str) :
    decimalValue "12abc".toList = none ∧
      (F.readFile path = some digitsThenLettersFile →
        db.loadFromFile E F path = (tableT idColumns [[.int 12]], none)) ∧
      (F.readFile path = some "TABLE T\nCOLUMNS: ID INT\nROW: 2,\nEND_TABLE\n".toList →
        db.loadFromFile E F path = (tableT idColumns [[.int 2]], none)) := by
  refine ⟨by decide, ?_, ?_⟩
  · intro h
    simp only [Database.loadFromFile, h]
    rfl
  · intro h
    simp only [Database.loadFromFile, h]
    rfl

/-- C27 (defect in the code): on `T(ID INT, N INT)` with the row `(1, 5)` the SET literals
`12abc` and `3.7`, which are no decimal integers, are accepted for the `INT` column `N`: no
type mismatch is reported, one row is reported as updated and the cell becomes 12 and 3. -/
theorem update_int_column_takes_non_integers (E : Env) (F : Files) :
    decimalValue "12abc".toList = none ∧ decimalValue "3.7".toList = none ∧
      executeCommand E F "UPDATE T SET N = 12abc WHERE ID == 1".toList
          (tableT idNColumns [[.int 1, .int 5]]) =
        { db := tableT idNColumns [[.int 1, .int 12]], out := [.rowsUpdated 1 "T".toList] } ∧
      executeCommand E F "UPDATE T SET N = 3.7 WHERE ID == 1".toList
          (tableT idNColumns [[.int 1, .int 5]]) =
        { db := tableT idNColumns [[.int 1, .int 3]], out := [.rowsUpdated 1 "T".toList] } :=
  ⟨by decide, by decide, rfl, rfl⟩

end CQL
